import Mathlib

/-!
# `vtkexport` (src/fpl_vts_write_field.cc): the structured-grid writer

Shallow embedding of the function `vtkexport` and the properties of the
document it writes.

Modelling conventions.

* `double` values are only copied by the writer (and the literal `0` is
  produced by `get_z`), so the value type is a parameter `α` with a zero.
* A buffer `const double *p` is the list of the doubles that live behind the
  pointer; the read `p[i]` is `rd p i : Option α`, where `none` is a read
  outside the buffer (undefined behaviour in the source).
* `octave_idx_type` is a signed integer, embedded as `Int`.  Signed overflow
  is undefined in C++, so there is no wrap-around to model; under the contract
  of the writer (extents at least 0, buffers of at least
  `(num_rows+1)*(num_cols+1)*(num_layers+1)` elements) every integer the
  function computes is bounded by the length of a buffer
  (`extents_le_of_contract`).
* The sink `std::ofstream ofs` is state: the precision in effect and the
  sequence of insertions made so far.  An inserted double is recorded with the
  precision that was in effect when it was inserted.  The document is this
  sequence of insertions; `render` gives its text.
* The full expression on line 77 is a chain of `<<`; its operands are
  evaluated left to right (C++17, [expr.shift]), so `X[count]` and `Y[count]`
  are read before `count++` takes effect.  Before C++17 the reads of `count`
  and the side effect of `count++` are unsequenced and the expression has no
  defined behaviour.
* `vtkexport` never tests the stream and never changes its exception mask, so
  the insertions it makes do not depend on the file behind it.  `deliver`
  replays them on the file stream of a device (`Device`, `FileState`, after
  `std::ofstream`): a stream whose file could not be opened takes nothing and,
  with the default mask, throws nothing.  A write that fails after the file was
  opened is not modelled.
* The tags of a document are read from its text (`documentTags`), with the
  field names as the writer inserts them, without escaping.
* The entry point `fpl_vts_write_field` is embedded for calls with at least
  five arguments of the expected types; an `Array<double>` is its extents and
  its flat data.  The `std::map` it fills is kept as the list of its entries in
  ascending order of the keys (`mapAssign`); `std::string` keys are compared
  lexicographically, as the strings of Lean are.  The line it prints on
  `std::cout` (line 123) is not part of the document.
-/

namespace Fpl

/-! ## The output sink -/

/-- One insertion `ofs << v`, as the sink records it. -/
inductive Item (α : Type) where
  /-- a string literal of the program text -/
  | lit (s : String)
  /-- a `std::string` value (a field name) -/
  | str (s : String)
  /-- an `octave_idx_type` value -/
  | idx (n : Int)
  /-- a `double`, with the stream precision in effect at the insertion;
      `none` is a value read outside its buffer -/
  | dbl (prec : Nat) (v : Option α)
  /-- the manipulator `std::endl` -/
  | endl
  deriving DecidableEq, Repr

/-- State of a `std::ostream`: the precision and what was inserted so far. -/
structure OStream (α : Type) where
  precision : Nat
  out : List (Item α)
  deriving DecidableEq, Repr

variable {α : Type}

/-- The sink after `std::ofstream ofs (filename, std::ofstream::out)`: nothing
is written yet, the precision is the default of `std::ios_base`, 6. -/
def ofstream : OStream α := ⟨6, []⟩

/-- The insertion `ofs << "literal"`. -/
def OStream.putLit (ofs : OStream α) (s : String) : OStream α :=
  { ofs with out := ofs.out ++ [Item.lit s] }

/-- The insertion `ofs << s` of a `std::string`. -/
def OStream.putStr (ofs : OStream α) (s : String) : OStream α :=
  { ofs with out := ofs.out ++ [Item.str s] }

/-- The insertion `ofs << n` of an `octave_idx_type`. -/
def OStream.putIdx (ofs : OStream α) (n : Int) : OStream α :=
  { ofs with out := ofs.out ++ [Item.idx n] }

/-- The insertion `ofs << d` of a `double`: formatted with the precision in
effect. -/
def OStream.putDbl (ofs : OStream α) (d : Option α) : OStream α :=
  { ofs with out := ofs.out ++ [Item.dbl ofs.precision d] }

/-- The insertion `ofs << std::endl`. -/
def OStream.putEndl (ofs : OStream α) : OStream α :=
  { ofs with out := ofs.out ++ [Item.endl] }

/-- The insertion `ofs << std::setprecision (n)`. -/
def OStream.setprecision (ofs : OStream α) (n : Nat) : OStream α :=
  { ofs with precision := n }

/-! ## Buffers and loops -/

/-- The read `p[i]` of a `const double *p` at a signed index. -/
def rd (p : List α) (i : Int) : Option α :=
  if 0 ≤ i then p[i.toNat]? else none

/-- The counted loop `for (i = 0; i < n; ++i) body`, for a body that writes
neither `i` nor `n`. -/
def forLoop {σ : Type} (n : Int) (body : Int → σ → σ) (s : σ) : σ :=
  (List.range n.toNat).foldl (fun st i => body (Int.ofNat i) st) s

/-! ## `vtkexport` -/

/-- The `std::map<std::string, const double*>`, as the sequence of its entries
in iteration order.  The writer only iterates over the map; its results hold
for every sequence of entries. -/
abbrev FieldMap (α : Type) := List (String × List α)

/-- Lines 43-46: the header. -/
def header (ofs : OStream α) (num_rows num_cols num_layers : Int) : OStream α :=
  let ofs := ofs.putLit "<VTKFile type=\"StructuredGrid\" version=\"StructuredGrid\" byte_order=\"LittleEndian\">\n    <StructuredGrid WholeExtent=\"0 "
  let ofs := ofs.putIdx num_rows
  let ofs := ofs.putLit " 0 "
  let ofs := ofs.putIdx num_cols
  let ofs := ofs.putLit " 0 "
  let ofs := ofs.putIdx num_layers
  let ofs := ofs.putLit " \">\n       <Piece Extent=\"0 "
  let ofs := ofs.putIdx num_rows
  let ofs := ofs.putLit " 0 "
  let ofs := ofs.putIdx num_cols
  let ofs := ofs.putLit " 0 "
  let ofs := ofs.putIdx num_layers
  ofs.putLit " \">\n"

/-- Lines 49-51: the names of the Scalars attribute, one pass per field. -/
def scalarsNames (ofs : OStream α) (f : FieldMap α) : OStream α :=
  f.foldl (fun ofs ii => (ofs.putStr ii.1).putLit ",") ofs

/-- Lines 56-58: the loop over the values of one field.  The loop variable is
`count`; the cursor `jj` starts at the buffer and advances with it. -/
def fieldValues (ofs : OStream α) (buf : List α) (nml : Int) : OStream α :=
  (forLoop nml
    (fun _count (st : OStream α × Int) =>
      let (ofs, jj) := st
      let ofs := ofs.putDbl (rd buf jj)
      let ofs := ofs.putLit " "
      (ofs, jj + 1))
    (ofs, 0)).1

/-- Lines 55-59: the body of the loop over the fields. -/
def fieldBlock (nml : Int) (ofs : OStream α) (ii : String × List α) : OStream α :=
  let ofs := ofs.putLit "        <DataArray type=\"Float64\" Name=\""
  let ofs := ofs.putStr ii.1
  let ofs := ofs.putLit "\" format=\"ascii\">\n        "
  let ofs := fieldValues ofs ii.2 nml
  let ofs := ofs.putEndl
  let ofs := ofs.putLit "        </DataArray>"
  ofs.putEndl

/-- Lines 54-60: one block per field. -/
def fieldBlocks (ofs : OStream α) (f : FieldMap α) (nml : Int) : OStream α :=
  f.foldl (fieldBlock nml) ofs

/-- Lines 64-67: the closure `get_z`. -/
def get_z [Zero α] (Z : List α) (num_layers : Int) : Int → Option α :=
  if num_layers > 0 then fun count => rd Z count else fun _ => some 0

/-- Line 77: one triple.  `X[count]` and `Y[count]` are inserted before the
argument `count++` of `get_z` is evaluated; `get_z` receives the value of
`count` before the increment. -/
def pointTriple (X Y : List α) (gz : Int → Option α)
    (st : OStream α × Int) : OStream α × Int :=
  let (ofs, count) := st
  let ofs := ofs.setprecision 16
  let ofs := ofs.putDbl (rd X count)
  let ofs := ofs.putLit " "
  let ofs := ofs.putDbl (rd Y count)
  let ofs := ofs.putLit " "
  let z := gz count
  let count := count + 1
  let ofs := ofs.putDbl z
  let ofs := ofs.putLit " "
  (ofs, count)

/-- Lines 74-80: the body of the loop over the columns, for one column. -/
def pointRows (X Y : List α) (gz : Int → Option α) (num_rows num_layers : Int)
    (st : OStream α × Int) : OStream α × Int :=
  forLoop (num_rows + 1)
    (fun _jj (st : OStream α × Int) =>
      let st := (st.1.putLit "          ", st.2)
      let st := forLoop (num_layers + 1) (fun _kk st => pointTriple X Y gz st) st
      (st.1.putEndl, st.2))
    st

/-- Lines 71-81: the point block. -/
def pointBlock (ofs : OStream α) (X Y : List α) (gz : Int → Option α)
    (num_rows num_cols num_layers : Int) : OStream α :=
  let count : Int := 0
  (forLoop (num_cols + 1)
    (fun _ii (st : OStream α × Int) =>
      let st := (st.1.putLit "          ", st.2)
      pointRows X Y gz num_rows num_layers st)
    (ofs, count)).1

/-- The function `vtkexport` (lines 28-91); the result is the sink at
`ofs.close ()`. -/
def vtkexport [Zero α] (X Y Z : List α) (f : FieldMap α)
    (num_rows num_cols num_layers : Int) : OStream α :=
  let nml := (num_rows + 1) * (num_cols + 1) * (num_layers + 1)
  let ofs : OStream α := ofstream
  let ofs := header ofs num_rows num_cols num_layers
  let ofs := ofs.putLit "      <PointData Scalars=\""
  let ofs := scalarsNames ofs f
  let ofs := ofs.putLit "\">\n"
  let ofs := fieldBlocks ofs f nml
  let ofs := ofs.putLit "      </PointData>\n"
  let gz := get_z Z num_layers
  let ofs := ofs.putLit "      <Points>\n        <DataArray type=\"Float64\" NumberOfComponents=\"3\" format=\"ascii\">\n"
  let ofs := pointBlock ofs X Y gz num_rows num_cols num_layers
  let ofs := ofs.putLit "        </DataArray>\n      </Points>\n"
  ofs.putLit "    </Piece>\n  </StructuredGrid>\n</VTKFile>\n"

/-! ## Program points of `vtkexport` and the sections of the document -/

/-- What the code that takes the sink from `before` to `after` has inserted. -/
def inserted (before after : OStream α) : List (Item α) :=
  after.out.drop before.out.length

/-- The sink of `vtkexport` when control reaches line 48. -/
def atPointData (num_rows num_cols num_layers : Int) : OStream α :=
  header ofstream num_rows num_cols num_layers

/-- The sink of `vtkexport` when control reaches line 49. -/
def atScalars (num_rows num_cols num_layers : Int) : OStream α :=
  (atPointData num_rows num_cols num_layers).putLit "      <PointData Scalars=\""

/-- The sink of `vtkexport` when control reaches line 54. -/
def atFields (f : FieldMap α) (num_rows num_cols num_layers : Int) : OStream α :=
  (scalarsNames (atScalars num_rows num_cols num_layers) f).putLit "\">\n"

/-- The sink of `vtkexport` when the loop of line 54 has made `i` passes. -/
def atField (f : FieldMap α) (num_rows num_cols num_layers : Int) (i : Nat) : OStream α :=
  fieldBlocks (atFields f num_rows num_cols num_layers) (f.take i)
    ((num_rows + 1) * (num_cols + 1) * (num_layers + 1))

/-- The sink of `vtkexport` when control reaches line 62. -/
def atFieldsEnd (f : FieldMap α) (num_rows num_cols num_layers : Int) : OStream α :=
  fieldBlocks (atFields f num_rows num_cols num_layers) f
    ((num_rows + 1) * (num_cols + 1) * (num_layers + 1))

/-- The sink of `vtkexport` when control reaches line 71. -/
def atPoints (f : FieldMap α) (num_rows num_cols num_layers : Int) : OStream α :=
  ((atFieldsEnd f num_rows num_cols num_layers).putLit "      </PointData>\n").putLit
    "      <Points>\n        <DataArray type=\"Float64\" NumberOfComponents=\"3\" format=\"ascii\">\n"

/-- The sink of `vtkexport` when control reaches line 82. -/
def atPointsEnd [Zero α] (X Y Z : List α) (f : FieldMap α)
    (num_rows num_cols num_layers : Int) : OStream α :=
  pointBlock (atPoints f num_rows num_cols num_layers) X Y (get_z Z num_layers)
    num_rows num_cols num_layers

/-- The header of the document: what lines 43-46 insert. -/
def vtkexport_header (α : Type) (num_rows num_cols num_layers : Int) : List (Item α) :=
  inserted ofstream (atPointData num_rows num_cols num_layers)

/-- The value of the Scalars attribute: what lines 49-51 insert. -/
def vtkexport_scalars (f : FieldMap α) (num_rows num_cols num_layers : Int) : List (Item α) :=
  inserted (atScalars num_rows num_cols num_layers)
    (scalarsNames (atScalars num_rows num_cols num_layers) f)

/-- The field blocks of the document: what lines 54-60 insert. -/
def vtkexport_fields (f : FieldMap α) (num_rows num_cols num_layers : Int) : List (Item α) :=
  inserted (atFields f num_rows num_cols num_layers) (atFieldsEnd f num_rows num_cols num_layers)

/-- The block of the `i`-th field: what pass `i` of the loop of line 54 inserts. -/
def vtkexport_fieldBlock (f : FieldMap α) (num_rows num_cols num_layers : Int) (i : Nat) :
    List (Item α) :=
  inserted (atField f num_rows num_cols num_layers i) (atField f num_rows num_cols num_layers (i + 1))

/-- The point block of the document: what lines 71-81 insert. -/
def vtkexport_points [Zero α] (X Y Z : List α) (f : FieldMap α)
    (num_rows num_cols num_layers : Int) : List (Item α) :=
  inserted (atPoints f num_rows num_cols num_layers) (atPointsEnd X Y Z f num_rows num_cols num_layers)

/-! ## Reading a document -/

/-- The doubles among the insertions, in order. -/
def values (items : List (Item α)) : List (Option α) :=
  items.filterMap fun it =>
    match it with
    | Item.dbl _ v => some v
    | _ => none

/-- The precisions with which the doubles among the insertions were written. -/
def precisions (items : List (Item α)) : List Nat :=
  items.filterMap fun it =>
    match it with
    | Item.dbl p _ => some p
    | _ => none

/-- The `std::string` values among the insertions, in order. -/
def names (items : List (Item α)) : List String :=
  items.filterMap fun it =>
    match it with
    | Item.str s => some s
    | _ => none

/-- Consecutive groups of three. -/
def triples {β : Type} : List β → List (β × β × β)
  | a :: b :: c :: rest => (a, b, c) :: triples rest
  | _ => []

/-- The text of one insertion; `fmt` is the conversion of a double at a given
precision. -/
def Item.render (fmt : Nat → Option α → String) : Item α → String
  | Item.lit s => s
  | Item.str s => s
  | Item.idx n => toString n
  | Item.dbl p v => fmt p v
  | Item.endl => "\n"

/-- The text of a sequence of insertions. -/
def render (fmt : Nat → Option α → String) : List (Item α) → String
  | [] => ""
  | it :: rest => it.render fmt ++ render fmt rest

/-- The grid positions in nested order: the column index outermost, the row
index in the middle, the layer index innermost. -/
def gridPositions (pc pr pl : Nat) : List (Nat × Nat × Nat) :=
  (List.range pc).flatMap fun colIndex =>
    (List.range pr).flatMap fun rowIndex =>
      (List.range pl).map fun layerIndex => (colIndex, rowIndex, layerIndex)

/-- The flat index of a grid position. -/
def flatIndex (pr pl : Nat) (pos : Nat × Nat × Nat) : Nat :=
  ((pos.1 * pr) + pos.2.1) * pl + pos.2.2

/-! ## Closed forms of what the loops insert -/

/-- The six insertions of line 77 when `count` is `c`. -/
def tripleItems (X Y : List α) (gz : Int → Option α) (c : Int) : List (Item α) :=
  [Item.dbl 16 (rd X c), Item.lit " ", Item.dbl 16 (rd Y c), Item.lit " ",
   Item.dbl 16 (gz c), Item.lit " "]

/-- The insertions of one pass of the loop over the rows (lines 75-79) entered
with `count = c`, for `pl` layers. -/
def rowItems (X Y : List α) (gz : Int → Option α) (pl : Nat) (c : Int) : List (Item α) :=
  Item.lit "          " ::
    ((List.range pl).flatMap fun l => tripleItems X Y gz (c + (l : Int))) ++ [Item.endl]

/-- The insertions of the point loops (lines 72-81) entered with `count = 0`,
for `pc` columns, `pr` rows and `pl` layers of points. -/
def pointItems (X Y : List α) (gz : Int → Option α) (pc pr pl : Nat) : List (Item α) :=
  (List.range pc).flatMap fun c =>
    Item.lit "          " ::
      (List.range pr).flatMap fun r => rowItems X Y gz pl ((flatIndex pr pl (c, r, 0) : Nat) : Int)

/-- The insertions of the loop over the values of one field (lines 56-58) at
precision `p`, for `n` values. -/
def valueItems (p : Nat) (buf : List α) (n : Nat) : List (Item α) :=
  (List.range n).flatMap fun j => [Item.dbl p buf[j]?, Item.lit " "]

/-- The insertions of one pass of the loop over the fields (lines 55-59) at
precision `p`, for `n` values. -/
def blockItems (p : Nat) (n : Nat) (ii : String × List α) : List (Item α) :=
  [Item.lit "        <DataArray type=\"Float64\" Name=\"", Item.str ii.1,
   Item.lit "\" format=\"ascii\">\n        "]
  ++ valueItems p ii.2 n
  ++ [Item.endl, Item.lit "        </DataArray>", Item.endl]

/-- The Name attributes of the DataArray opening tags of the field blocks
among the insertions: each is the `std::string` that directly follows the
literal of line 55. -/
def dataArrayNames : List (Item α) → List String
  | Item.lit s :: Item.str n :: rest =>
    if s = "        <DataArray type=\"Float64\" Name=\"" then n :: dataArrayNames rest
    else dataArrayNames rest
  | _ :: rest => dataArrayNames rest
  | [] => []

/-! ## The entry point `fpl_vts_write_field` -/

/-- An `Array<double>` of Octave: its extents along the first three axes
(`dim1 ()`, `dim2 ()`, `dim3 ()`) and its elements, flat (`data ()`). -/
structure NDArray (α : Type) where
  dim1 : Nat
  dim2 : Nat
  dim3 : Nat
  data : List α

/-- The arguments of a call with at least five arguments: `args(0)` to
`args(4)`, and the arguments after the fifth, so that `args(5)` is the head of
`more` and `nargin` is 5 plus the length of `more`. -/
structure Args (α : Type) where
  filename : String
  var_names : List String
  vars : List (NDArray α)
  X : NDArray α
  Y : NDArray α
  more : List (NDArray α)

/-- The value of `args.length ()`. -/
def Args.length (args : Args α) : Int := 5 + args.more.length

/-- The assignment `f[k] = v` on a `std::map` with `std::string` keys: the
entries are kept in strictly ascending order of the keys, an entry with the key
`k` has its value replaced. -/
def mapAssign : FieldMap α → String → List α → FieldMap α
  | [], k, v => [(k, v)]
  | (k', v') :: rest, k, v =>
    if k < k' then (k, v) :: (k', v') :: rest
    else if k' < k then (k', v') :: mapAssign rest k v
    else (k', v) :: rest

/-- Lines 118-121: the dictionary built from the cell of the names and the
cell of the arrays.  The cell `vars` is read at the indices of `var_names`; a
read outside `vars` gives the empty buffer. -/
def fieldMapOf (var_names : List String) (vars : List (NDArray α)) : FieldMap α :=
  forLoop (var_names.length : Int)
    (fun jj f =>
      mapAssign f ((rd var_names jj).getD "") (((rd vars jj).map NDArray.data).getD []))
    []

/-- The function `fpl_vts_write_field` (lines 95-126); the result is the sink
of its call of `vtkexport`. -/
def fpl_vts_write_field [Zero α] (args : Args α) : OStream α :=
  let nargin := args.length
  let var_names := args.var_names
  let vars := args.vars
  let X := args.X
  let num_rows : Int := X.dim1 - 1
  let Y := args.Y
  let num_cols : Int := Y.dim2 - 1
  let Z : List α := []
  let num_layers : Int := 0
  let (Z, num_layers) :=
    if nargin > 5 then
      match args.more with
      | z :: _ => (z.data, (z.dim3 : Int) - 1)
      | [] => (Z, num_layers)
    else (Z, num_layers)
  let f := fieldMapOf var_names vars
  vtkexport X.data Y.data Z f num_rows num_cols num_layers

/-! ## The elements of the document -/

/-- What the file system does at the start of one call: whether the file can be
opened. -/
structure Device where
  opens : Bool
  deriving DecidableEq, Repr

/-- The exception `std::ios_base::failure`, the way in which a stream reports
a failure to the code that uses it. -/
inductive IOFailure where
  | failure
  deriving DecidableEq, Repr

/-- State of the file stream, after `std::ofstream`: `good` is false once the
stream has failed, `exceptions` tells whether the exception mask of the stream
makes a failure throw, `content` is what the stream has taken for the file. -/
structure FileState (α : Type) where
  good : Bool
  exceptions : Bool
  content : List (Item α)

/-- The stream after `std::ofstream ofs (filename, std::ofstream::out)` on a
device: it is good when the file could be opened, the exception mask is the
default (nothing throws), nothing is written. -/
def FileState.opened (dev : Device) : FileState α :=
  ⟨dev.opens, false, []⟩

/-- One insertion on the file stream.  A good stream takes it.  On a stream
that has failed the insertion writes nothing and sets the failure again, which
throws when the exception mask says so and is silent otherwise. -/
def FileState.put (fl : FileState α) (it : Item α) : Except IOFailure (FileState α) :=
  if fl.good then Except.ok { fl with content := fl.content ++ [it] }
  else if fl.exceptions then Except.error IOFailure.failure
  else Except.ok fl

/-- The insertions `doc` made one after the other on the stream of a device.
A write that fails after the file was opened is not modelled: what reaches the
file then depends on the buffer of the stream. -/
def deliver (dev : Device) (doc : List (Item α)) : Except IOFailure (FileState α) :=
  doc.foldlM FileState.put (FileState.opened dev)

/-- A call of `vtkexport` on a device.  The function is declared `void`, so a
call that returns gives its caller no value, `Except.ok`; a call that throws
gives `Except.error`.  The file stream is local to the call; its final state is
kept here to tell what was written.  The function never tests the stream and
never changes its exception mask, so the insertions it makes do not depend on
the device. -/
def vtkexport_call [Zero α] (dev : Device) (X Y Z : List α) (f : FieldMap α)
    (num_rows num_cols num_layers : Int) : Except IOFailure (FileState α) :=
  deliver dev (vtkexport X Y Z f num_rows num_cols num_layers).out

/-! ## Loops -/

theorem rd_natCast (p : List α) (n : Nat) : rd p (n : Int) = p[n]? := by
  simp [rd]

/-- A counted loop whose body appends `g count` and advances `count` by `d`. -/
theorem forLoop_spec {σ β : Type} (out : σ → List β) (cnt : σ → Int)
    (inv : σ → Prop) (body : Int → σ → σ) (g : Int → List β) (d : Int)
    (hinv : ∀ i s, inv s → inv (body i s))
    (hout : ∀ i s, inv s → out (body i s) = out s ++ g (cnt s))
    (hcnt : ∀ i s, inv s → cnt (body i s) = cnt s + d)
    (n : Int) (s : σ) (hs : inv s) :
    inv (forLoop n body s) ∧
    out (forLoop n body s)
      = out s ++ (List.range n.toNat).flatMap (fun i => g (cnt s + (i : Int) * d)) ∧
    cnt (forLoop n body s) = cnt s + (n.toNat : Int) * d := by
  unfold forLoop
  induction n.toNat with
  | zero => simp [hs]
  | succ m ih =>
    obtain ⟨h1, h2, h3⟩ := ih
    rw [List.range_succ, List.foldl_append]
    simp only [List.foldl_cons, List.foldl_nil, List.flatMap_append, List.flatMap_cons,
      List.flatMap_nil, List.append_nil]
    refine ⟨hinv _ _ h1, ?_, ?_⟩
    · rw [hout _ _ h1, h2, h3, List.append_assoc]
    · rw [hcnt _ _ h1, h3]; push_cast; ring

/-- The integers of `vtkexport` under its contract: with a buffer of `L`
elements that holds the `N` points, every factor and every partial product of
`nml` is at most `L`. -/
theorem extents_le_of_contract (numRows numCols numLayers L : Nat)
    (h : (numRows + 1) * (numCols + 1) * (numLayers + 1) ≤ L) :
    numRows + 1 ≤ L ∧ numCols + 1 ≤ L ∧ numLayers + 1 ≤ L ∧
    (numRows + 1) * (numCols + 1) ≤ L := by
  have h1 : (numRows + 1) * (numCols + 1) ≤ (numRows + 1) * (numCols + 1) * (numLayers + 1) :=
    Nat.le_mul_of_pos_right _ (Nat.succ_pos _)
  have h2 : numRows + 1 ≤ (numRows + 1) * (numCols + 1) :=
    Nat.le_mul_of_pos_right _ (Nat.succ_pos _)
  have h3 : numCols + 1 ≤ (numRows + 1) * (numCols + 1) :=
    Nat.le_mul_of_pos_left _ (Nat.succ_pos _)
  have h4 : numLayers + 1 ≤ (numRows + 1) * (numCols + 1) * (numLayers + 1) :=
    Nat.le_mul_of_pos_left _ (Nat.mul_pos (Nat.succ_pos _) (Nat.succ_pos _))
  omega

theorem inserted_eq (before after : OStream α) (l : List (Item α))
    (h : after.out = before.out ++ l) : inserted before after = l := by
  simp [inserted, h]

/-! ## The point block -/

theorem pointTriple_spec (X Y : List α) (gz : Int → Option α) (st : OStream α × Int) :
    (pointTriple X Y gz st).1.out = st.1.out ++ tripleItems X Y gz st.2 ∧
    (pointTriple X Y gz st).2 = st.2 + 1 := by
  obtain ⟨ofs, c⟩ := st
  simp [pointTriple, tripleItems, OStream.putDbl, OStream.putLit, OStream.setprecision]

theorem layers_spec (X Y : List α) (gz : Int → Option α) (n : Int) (st : OStream α × Int) :
    (forLoop n (fun _ st => pointTriple X Y gz st) st).1.out
      = st.1.out ++ (List.range n.toNat).flatMap (fun l => tripleItems X Y gz (st.2 + (l : Int))) ∧
    (forLoop n (fun _ st => pointTriple X Y gz st) st).2 = st.2 + (n.toNat : Int) := by
  have h := (forLoop_spec (fun st : OStream α × Int => st.1.out) (fun st => st.2) (fun _ => True)
    (fun _ st => pointTriple X Y gz st) (tripleItems X Y gz) 1
    (fun _ _ _ => trivial)
    (fun _ s _ => (pointTriple_spec X Y gz s).1)
    (fun _ s _ => (pointTriple_spec X Y gz s).2) n st trivial).2
  simpa using h

theorem pointRows_spec (X Y : List α) (gz : Int → Option α) (num_rows num_layers : Int)
    (st : OStream α × Int) :
    (pointRows X Y gz num_rows num_layers st).1.out
      = st.1.out ++ (List.range (num_rows + 1).toNat).flatMap
          (fun r => rowItems X Y gz (num_layers + 1).toNat
            (st.2 + (r : Int) * ((num_layers + 1).toNat : Int))) ∧
    (pointRows X Y gz num_rows num_layers st).2
      = st.2 + ((num_rows + 1).toNat : Int) * ((num_layers + 1).toNat : Int) := by
  refine (forLoop_spec (fun st : OStream α × Int => st.1.out) (fun st => st.2) (fun _ => True)
    _ (rowItems X Y gz (num_layers + 1).toNat) ((num_layers + 1).toNat : Int)
    (fun _ _ _ => trivial) ?_ ?_ (num_rows + 1) st trivial).2
  · intro _ s _
    simp only [OStream.putEndl]
    rw [(layers_spec X Y gz _ _).1]
    simp [rowItems, OStream.putLit]
  · intro _ s _
    simp only [OStream.putEndl]
    rw [(layers_spec X Y gz _ _).2]

theorem pointBlock_out (ofs : OStream α) (X Y : List α) (gz : Int → Option α)
    (num_rows num_cols num_layers : Int) :
    (pointBlock ofs X Y gz num_rows num_cols num_layers).out
      = ofs.out ++ pointItems X Y gz (num_cols + 1).toNat (num_rows + 1).toNat
          (num_layers + 1).toNat := by
  have h := (forLoop_spec (fun st : OStream α × Int => st.1.out) (fun st => st.2) (fun _ => True)
    (fun _ii (st : OStream α × Int) =>
      pointRows X Y gz num_rows num_layers (st.1.putLit "          ", st.2))
    (fun c => Item.lit "          " :: (List.range (num_rows + 1).toNat).flatMap
          (fun r => rowItems X Y gz (num_layers + 1).toNat
            (c + (r : Int) * ((num_layers + 1).toNat : Int))))
    (((num_rows + 1).toNat : Int) * ((num_layers + 1).toNat : Int))
    (fun _ _ _ => trivial) ?_ ?_ (num_cols + 1) (ofs, 0) trivial).2.1
  · unfold pointBlock pointItems
    rw [h]
    have e : ∀ c r : Nat, (0 : Int) + (c : Int) * (((num_rows + 1).toNat : Int) * ((num_layers + 1).toNat : Int))
          + (r : Int) * ((num_layers + 1).toNat : Int)
        = ((flatIndex (num_rows + 1).toNat (num_layers + 1).toNat (c, r, 0) : Nat) : Int) := by
      intro c r
      simp only [flatIndex]
      push_cast
      ring
    simp only [e]
  · intro _ s _
    simp only []
    rw [(pointRows_spec X Y gz _ _ _).1]
    simp [OStream.putLit]
  · intro _ s _
    simp only []
    rw [(pointRows_spec X Y gz _ _ _).2]

/-! ## Reading the point block -/

theorem triples_flatMap {ι β : Type} (L : List ι) (a b c : ι → β) :
    triples (L.flatMap fun k => [a k, b k, c k]) = L.map fun k => (a k, b k, c k) := by
  induction L with
  | nil => rfl
  | cons k L ih =>
    rw [List.flatMap_cons]
    show triples (a k :: b k :: c k :: (L.flatMap fun k => [a k, b k, c k])) = _
    simp only [triples, ih, List.map_cons]

theorem flatIndex_layer (pr pl c r l : Nat) :
    ((flatIndex pr pl (c, r, 0) : Nat) : Int) + (l : Int) = ((flatIndex pr pl (c, r, l) : Nat) : Int) := by
  simp [flatIndex]

theorem values_pointItems (X Y : List α) (gz : Int → Option α) (pc pr pl : Nat) :
    values (pointItems X Y gz pc pr pl)
      = (gridPositions pc pr pl).flatMap fun pos =>
          [X[flatIndex pr pl pos]?, Y[flatIndex pr pl pos]?, gz (flatIndex pr pl pos : Nat)] := by
  simp only [values, pointItems, rowItems, tripleItems, gridPositions, flatIndex_layer, rd_natCast,
    List.filterMap_flatMap, List.filterMap_cons, List.filterMap_append, List.filterMap_nil,
    List.flatMap_assoc, List.flatMap_map, List.flatMap_cons, List.flatMap_nil, List.append_nil,
    List.flatMap_append, List.nil_append, List.cons_append]

theorem precisions_pointItems (X Y : List α) (gz : Int → Option α) (pc pr pl : Nat) :
    precisions (pointItems X Y gz pc pr pl)
      = (gridPositions pc pr pl).flatMap fun _ => [16, 16, 16] := by
  simp only [precisions, pointItems, rowItems, tripleItems, gridPositions,
    List.filterMap_flatMap, List.filterMap_cons, List.filterMap_append, List.filterMap_nil,
    List.flatMap_assoc, List.flatMap_map, List.flatMap_cons, List.flatMap_nil, List.append_nil,
    List.flatMap_append, List.nil_append, List.cons_append]

/-- Two nested counted loops enumerate `i * b + j` in increasing order. -/
theorem range_flatMap_range {β : Type} (a b : Nat) (g : Nat → β) :
    ((List.range a).flatMap fun i => (List.range b).map fun j => g (i * b + j))
      = (List.range (a * b)).map g := by
  induction a with
  | zero => simp
  | succ a ih =>
    rw [List.range_succ, List.flatMap_append, ih, Nat.succ_mul, List.range_add, List.map_append]
    simp [List.flatMap_cons, Function.comp_def]

/-- In nested order the flat index of the grid positions counts up from 0. -/
theorem map_flatIndex_gridPositions (pc pr pl : Nat) :
    (gridPositions pc pr pl).map (flatIndex pr pl) = List.range (pc * pr * pl) := by
  have h1 : ∀ c : Nat, ((List.range pr).flatMap fun r =>
      (List.range pl).map fun l => (c * pr + r) * pl + l)
        = (List.range (pr * pl)).map fun k => c * (pr * pl) + k := by
    intro c
    rw [← range_flatMap_range pr pl (fun k => c * (pr * pl) + k)]
    congr 1; funext r; congr 1; funext l; ring
  simp only [gridPositions, flatIndex, List.map_flatMap, List.map_map, Function.comp_def, h1]
  rw [range_flatMap_range pc (pr * pl) (fun k => k), List.map_id', mul_assoc]

theorem length_gridPositions (pc pr pl : Nat) :
    (gridPositions pc pr pl).length = pc * pr * pl := by
  rw [← List.length_map (gridPositions pc pr pl) (flatIndex pr pl), map_flatIndex_gridPositions,
    List.length_range]

/-- The point block of the document, in closed form. -/
theorem vtkexport_points_eq [Zero α] (X Y Z : List α) (f : FieldMap α)
    (num_rows num_cols num_layers : Int) :
    vtkexport_points X Y Z f num_rows num_cols num_layers
      = pointItems X Y (get_z Z num_layers) (num_cols + 1).toNat (num_rows + 1).toNat
          (num_layers + 1).toNat :=
  inserted_eq _ _ _ (pointBlock_out _ X Y _ num_rows num_cols num_layers)

theorem toNat_natCast_succ (n : Nat) : ((n : Int) + 1).toNat = n + 1 := by
  omega

/-- The triples of the point block, by grid position. -/
theorem triples_points_grid [Zero α] (X Y Z : List α) (f : FieldMap α)
    (numRows numCols numLayers : Nat) :
    triples (values (vtkexport_points X Y Z f numRows numCols numLayers))
      = (gridPositions (numCols + 1) (numRows + 1) (numLayers + 1)).map fun pos =>
          (X[flatIndex (numRows + 1) (numLayers + 1) pos]?,
           Y[flatIndex (numRows + 1) (numLayers + 1) pos]?,
           get_z Z numLayers (flatIndex (numRows + 1) (numLayers + 1) pos : Nat)) := by
  rw [vtkexport_points_eq, values_pointItems, triples_flatMap]
  simp only [toNat_natCast_succ]

/-- The triples of the point block, by position in the document. -/
theorem triples_points_range [Zero α] (X Y Z : List α) (f : FieldMap α)
    (numRows numCols numLayers : Nat) :
    triples (values (vtkexport_points X Y Z f numRows numCols numLayers))
      = (List.range ((numRows + 1) * (numCols + 1) * (numLayers + 1))).map fun i =>
          (X[i]?, Y[i]?, get_z Z numLayers (i : Nat)) := by
  rw [triples_points_grid]
  have h := congrArg (List.map fun i => (X[i]?, Y[i]?, get_z Z (numLayers : Int) (i : Nat)))
    (map_flatIndex_gridPositions (numCols + 1) (numRows + 1) (numLayers + 1))
  rw [List.map_map] at h
  rw [Nat.mul_comm (numRows + 1) (numCols + 1)]
  exact h

theorem length_flatMap_triple {ι β : Type} (L : List ι) (a b c : ι → β) :
    (L.flatMap fun k => [a k, b k, c k]).length = 3 * L.length := by
  induction L with
  | nil => rfl
  | cons k L ih =>
    rw [List.flatMap_cons, List.length_append, ih, List.length_cons]
    simp only [List.length_cons, List.length_nil]
    omega

/-! ## The point block: order, count, degenerate axis, common index -/

/-- C1: for all extents `numRows, numCols, numLayers ≥ 0` the point block of
`vtkexport` emits its triples in nested order, the column index outermost, the
row index in the middle and the layer index innermost, and the triple emitted
at the position `(colIndex, rowIndex, layerIndex)` has the X component
`X[flatIndex]` and the Y component `Y[flatIndex]`, with
`flatIndex = ((colIndex * pr) + rowIndex) * pl + layerIndex`. -/
theorem C1_point_traversal_order [Zero α] (X Y Z : List α) (f : FieldMap α)
    (numRows numCols numLayers : Nat) :
    (triples (values (vtkexport_points X Y Z f numRows numCols numLayers))).map
        (fun t => (t.1, t.2.1))
      = (gridPositions (numCols + 1) (numRows + 1) (numLayers + 1)).map fun pos =>
          (X[((pos.1 * (numRows + 1)) + pos.2.1) * (numLayers + 1) + pos.2.2]?,
           Y[((pos.1 * (numRows + 1)) + pos.2.1) * (numLayers + 1) + pos.2.2]?) := by
  rw [triples_points_grid, List.map_map]
  rfl

/-- C1, the scenario of the spec: with `numRows = numCols = numLayers = 1` and
buffers that hold their own index, the 8 triples carry the indices 0, 1, ..., 7
in this order. -/
theorem C1_point_traversal_order_witness :
    (triples (values (vtkexport_points (α := Int) [0, 1, 2, 3, 4, 5, 6, 7]
        [0, 1, 2, 3, 4, 5, 6, 7] [0, 1, 2, 3, 4, 5, 6, 7] [] 1 1 1))).map
        (fun t => (t.1, t.2.1))
      = [(some 0, some 0), (some 1, some 1), (some 2, some 2), (some 3, some 3),
         (some 4, some 4), (some 5, some 5), (some 6, some 6), (some 7, some 7)] :=
  (C1_point_traversal_order (α := Int) [0, 1, 2, 3, 4, 5, 6, 7] [0, 1, 2, 3, 4, 5, 6, 7]
    [0, 1, 2, 3, 4, 5, 6, 7] [] 1 1 1).trans (by decide)

/-- C2: for all `numRows, numCols, numLayers ≥ 0` the number of coordinate
triples that `vtkexport` writes in the Points section is
`(numRows+1)*(numCols+1)*(numLayers+1)`; the doubles of the section are
exactly these triples. -/
theorem C2_point_count [Zero α] (X Y Z : List α) (f : FieldMap α)
    (numRows numCols numLayers : Nat) :
    (triples (values (vtkexport_points X Y Z f numRows numCols numLayers))).length
      = (numRows + 1) * (numCols + 1) * (numLayers + 1) ∧
    (values (vtkexport_points X Y Z f numRows numCols numLayers)).length
      = 3 * ((numRows + 1) * (numCols + 1) * (numLayers + 1)) := by
  constructor
  · rw [triples_points_range, List.length_map, List.length_range]
  · rw [vtkexport_points_eq, values_pointItems]
    rw [length_flatMap_triple, length_gridPositions]
    simp only [toNat_natCast_succ, Nat.mul_comm (numRows + 1) (numCols + 1)]

/-- C3: for `numLayers = 0` and all `numRows, numCols ≥ 0` every Z component of
the point block is `0`, and the Z buffer is not read: two runs of `vtkexport`
that differ only in the Z buffer (an empty one included) give the same
document. -/
theorem C3_degenerate_z_is_zero [Zero α] (X Y Z Z' : List α) (f : FieldMap α)
    (numRows numCols : Nat) :
    (triples (values (vtkexport_points X Y Z f numRows numCols 0))).map (fun t => t.2.2)
      = List.replicate ((numRows + 1) * (numCols + 1)) (some 0) ∧
    vtkexport X Y Z f numRows numCols 0 = vtkexport X Y Z' f numRows numCols 0 := by
  constructor
  · have h := triples_points_range X Y Z f numRows numCols 0
    simp only [Nat.cast_zero] at h
    rw [h, List.map_map]
    simp [get_z, Function.comp_def, List.map_const']
  · simp [vtkexport, get_z]

/-- C4: for `numLayers > 0` the three components of every triple of the point
block are read from X, Y and Z at one index: the `i`-th triple is
`(X[i], Y[i], Z[i])`. -/
theorem C4_one_index_per_triple [Zero α] (X Y Z : List α) (f : FieldMap α)
    (numRows numCols numLayers : Nat) (h : 0 < numLayers) :
    triples (values (vtkexport_points X Y Z f numRows numCols numLayers))
      = (List.range ((numRows + 1) * (numCols + 1) * (numLayers + 1))).map fun i =>
          (X[i]?, Y[i]?, Z[i]?) := by
  rw [triples_points_range]
  have hz : ∀ i : Nat, get_z Z (numLayers : Int) (i : Int) = Z[i]? := by
    intro i
    have : (numLayers : Int) > 0 := by exact_mod_cast h
    simp [get_z, this, rd_natCast]
  simp only [hz]

/-- C4 at `numRows = 1`, `numCols = 0`, `numLayers = 1` with distinct buffers. -/
theorem C4_one_index_per_triple_witness :
    0 < 1 ∧
    triples (values (vtkexport_points (α := Int) [10, 11, 12, 13] [20, 21, 22, 23]
        [30, 31, 32, 33] [] 1 0 1))
      = [(some 10, some 20, some 30), (some 11, some 21, some 31),
         (some 12, some 22, some 32), (some 13, some 23, some 33)] :=
  ⟨by decide, (C4_one_index_per_triple (α := Int) [10, 11, 12, 13] [20, 21, 22, 23]
    [30, 31, 32, 33] [] 1 0 1 (by decide)).trans (by decide)⟩

/-! ## The field blocks -/

theorem fieldValues_spec (ofs : OStream α) (buf : List α) (nml : Int) :
    (fieldValues ofs buf nml).out = ofs.out ++ valueItems ofs.precision buf nml.toNat ∧
    (fieldValues ofs buf nml).precision = ofs.precision := by
  have h := forLoop_spec (fun st : OStream α × Int => st.1.out) (fun st => st.2)
    (fun st => st.1.precision = ofs.precision)
    (fun _count (st : OStream α × Int) => ((st.1.putDbl (rd buf st.2)).putLit " ", st.2 + 1))
    (fun c => [Item.dbl ofs.precision (rd buf c), Item.lit " "]) 1
    (fun _ s hs => by simpa [OStream.putDbl, OStream.putLit] using hs)
    (fun _ s hs => by simp [OStream.putDbl, OStream.putLit, hs])
    (fun _ _ _ => rfl) nml (ofs, 0) rfl
  refine ⟨?_, h.1⟩
  have h2 := h.2.1
  simp only [zero_add, mul_one, rd_natCast] at h2
  exact h2

theorem fieldBlock_spec (nml : Int) (ofs : OStream α) (ii : String × List α) :
    (fieldBlock nml ofs ii).out = ofs.out ++ blockItems ofs.precision nml.toNat ii ∧
    (fieldBlock nml ofs ii).precision = ofs.precision := by
  constructor
  · simp only [fieldBlock, OStream.putEndl, OStream.putLit]
    rw [(fieldValues_spec _ _ _).1]
    simp [blockItems, OStream.putStr, OStream.putLit]
  · simp only [fieldBlock, OStream.putEndl, OStream.putLit]
    rw [(fieldValues_spec _ _ _).2]
    rfl

theorem fieldBlocks_spec (f : FieldMap α) (nml : Int) (ofs : OStream α) :
    (fieldBlocks ofs f nml).out = ofs.out ++ f.flatMap (blockItems ofs.precision nml.toNat) ∧
    (fieldBlocks ofs f nml).precision = ofs.precision := by
  induction f generalizing ofs with
  | nil => simp [fieldBlocks]
  | cons ii f ih =>
    have h := ih (fieldBlock nml ofs ii)
    rw [(fieldBlock_spec nml ofs ii).1, (fieldBlock_spec nml ofs ii).2] at h
    simpa [fieldBlocks, List.flatMap_cons] using h

theorem scalarsNames_spec (f : FieldMap α) (ofs : OStream α) :
    (scalarsNames ofs f).out = ofs.out ++ f.flatMap (fun ii => [Item.str ii.1, Item.lit ","]) ∧
    (scalarsNames ofs f).precision = ofs.precision := by
  induction f generalizing ofs with
  | nil => simp [scalarsNames]
  | cons ii f ih =>
    have h := ih ((ofs.putStr ii.1).putLit ",")
    simpa [scalarsNames, List.flatMap_cons, OStream.putStr, OStream.putLit] using h

theorem atFields_precision (f : FieldMap α) (num_rows num_cols num_layers : Int) :
    (atFields f num_rows num_cols num_layers).precision = 6 := by
  simp only [atFields, OStream.putLit]
  rw [(scalarsNames_spec f _).2]
  rfl

theorem atField_spec (f : FieldMap α) (num_rows num_cols num_layers : Int) (i : Nat) :
    (atField f num_rows num_cols num_layers i).out
      = (atFields f num_rows num_cols num_layers).out ++ (f.take i).flatMap
          (blockItems 6 ((num_rows + 1) * (num_cols + 1) * (num_layers + 1)).toNat) ∧
    (atField f num_rows num_cols num_layers i).precision = 6 := by
  have h := fieldBlocks_spec (f.take i) ((num_rows + 1) * (num_cols + 1) * (num_layers + 1))
    (atFields f num_rows num_cols num_layers)
  rw [atFields_precision] at h
  exact h

/-- The header, in closed form. -/
theorem vtkexport_header_eq (num_rows num_cols num_layers : Int) :
    vtkexport_header α num_rows num_cols num_layers
      = [Item.lit "<VTKFile type=\"StructuredGrid\" version=\"StructuredGrid\" byte_order=\"LittleEndian\">\n    <StructuredGrid WholeExtent=\"0 ",
         Item.idx num_rows, Item.lit " 0 ", Item.idx num_cols, Item.lit " 0 ",
         Item.idx num_layers, Item.lit " \">\n       <Piece Extent=\"0 ",
         Item.idx num_rows, Item.lit " 0 ", Item.idx num_cols, Item.lit " 0 ",
         Item.idx num_layers, Item.lit " \">\n"] := rfl

/-- The Scalars names, in closed form. -/
theorem vtkexport_scalars_eq (f : FieldMap α) (num_rows num_cols num_layers : Int) :
    vtkexport_scalars f num_rows num_cols num_layers
      = f.flatMap fun ii => [Item.str ii.1, Item.lit ","] :=
  inserted_eq _ _ _ (scalarsNames_spec f _).1

/-- The field blocks, in closed form. -/
theorem vtkexport_fields_eq (f : FieldMap α) (num_rows num_cols num_layers : Int) :
    vtkexport_fields f num_rows num_cols num_layers
      = f.flatMap (blockItems 6 ((num_rows + 1) * (num_cols + 1) * (num_layers + 1)).toNat) := by
  apply inserted_eq
  have h := fieldBlocks_spec f ((num_rows + 1) * (num_cols + 1) * (num_layers + 1))
    (atFields f num_rows num_cols num_layers)
  rw [atFields_precision] at h
  exact h.1

/-- The block of one field, in closed form. -/
theorem vtkexport_fieldBlock_eq (f : FieldMap α) (num_rows num_cols num_layers : Int)
    (i : Nat) (hi : i < f.length) :
    vtkexport_fieldBlock f num_rows num_cols num_layers i
      = blockItems 6 ((num_rows + 1) * (num_cols + 1) * (num_layers + 1)).toNat (f.get ⟨i, hi⟩) := by
  apply inserted_eq
  rw [(atField_spec f _ _ _ (i + 1)).1, (atField_spec f _ _ _ i).1, List.take_succ,
    List.getElem?_eq_getElem hi]
  simp only [Option.toList, List.flatMap_append, List.flatMap_cons, List.flatMap_nil,
    List.append_nil, List.get_eq_getElem, List.append_assoc]

/-- The document is the sequence of its sections. -/
theorem vtkexport_out [Zero α] (X Y Z : List α) (f : FieldMap α)
    (num_rows num_cols num_layers : Int) :
    (vtkexport X Y Z f num_rows num_cols num_layers).out
      = vtkexport_header α num_rows num_cols num_layers
        ++ [Item.lit "      <PointData Scalars=\""]
        ++ vtkexport_scalars f num_rows num_cols num_layers
        ++ [Item.lit "\">\n"]
        ++ vtkexport_fields f num_rows num_cols num_layers
        ++ [Item.lit "      </PointData>\n",
            Item.lit "      <Points>\n        <DataArray type=\"Float64\" NumberOfComponents=\"3\" format=\"ascii\">\n"]
        ++ vtkexport_points X Y Z f num_rows num_cols num_layers
        ++ [Item.lit "        </DataArray>\n      </Points>\n",
            Item.lit "    </Piece>\n  </StructuredGrid>\n</VTKFile>\n"] := by
  rw [vtkexport_points_eq, vtkexport_fields_eq, vtkexport_scalars_eq]
  have e : vtkexport X Y Z f num_rows num_cols num_layers
      = ((atPointsEnd X Y Z f num_rows num_cols num_layers).putLit
          "        </DataArray>\n      </Points>\n").putLit
          "    </Piece>\n  </StructuredGrid>\n</VTKFile>\n" := rfl
  rw [e]
  simp only [OStream.putLit, atPointsEnd, atPoints, atFieldsEnd]
  rw [pointBlock_out]
  simp only [OStream.putLit]
  rw [(fieldBlocks_spec f _ _).1, atFields_precision]
  simp only [atFields, OStream.putLit]
  rw [(scalarsNames_spec f _).1]
  simp only [atScalars, OStream.putLit, atPointData, vtkexport_header, inserted, ofstream,
    List.length_nil, List.drop_zero, List.append_assoc, List.cons_append, List.nil_append]

/-! ## Reading the field blocks and the header -/

theorem join_cons (a : String) (l : List String) : String.join (a :: l) = a ++ String.join l := by
  rw [String.join_eq, String.join_eq]
  apply String.ext
  simp

theorem render_scalars (fmt : Nat → Option α → String) (f : FieldMap α) :
    render fmt (f.flatMap fun ii => [Item.str ii.1, Item.lit ","])
      = String.join (f.map fun ii => ii.1 ++ ",") := by
  induction f with
  | nil => rfl
  | cons ii f ih =>
    rw [List.flatMap_cons, List.map_cons, join_cons, ← ih]
    simp [render, Item.render, String.append_assoc]

theorem names_scalars (f : FieldMap α) :
    names (f.flatMap fun ii => [Item.str ii.1, Item.lit (α := α) ","]) = f.map Prod.fst := by
  induction f with
  | nil => rfl
  | cons ii f ih =>
    rw [List.flatMap_cons, List.map_cons, ← ih]
    simp [names]

theorem values_valueItems (p : Nat) (buf : List α) (n : Nat) :
    values (valueItems p buf n) = (List.range n).map fun j => buf[j]? := by
  simp only [values, valueItems, List.filterMap_flatMap, List.filterMap_cons, List.filterMap_nil]
  induction List.range n with
  | nil => rfl
  | cons j L ih => simp [List.flatMap_cons, ih]

theorem precisions_valueItems (p : Nat) (buf : List α) (n : Nat) :
    precisions (valueItems p buf n) = List.replicate n p := by
  simp only [precisions, valueItems, List.filterMap_flatMap, List.filterMap_cons, List.filterMap_nil]
  have h : ∀ L : List Nat, (L.flatMap fun _ => [p]) = List.replicate L.length p := by
    intro L
    induction L with
    | nil => rfl
    | cons j L ih => simp [List.flatMap_cons, ih, List.replicate_succ]
  rw [h, List.length_range]

theorem values_blockItems (p n : Nat) (ii : String × List α) :
    values (blockItems p n ii) = (List.range n).map fun j => ii.2[j]? := by
  have h := values_valueItems p ii.2 n
  simp only [values] at h ⊢
  simp [blockItems, List.filterMap_append, h]

theorem dataArrayNames_values (p : Nat) (g : Nat → Option α) (L : List Nat)
    (t : List (Item α)) :
    dataArrayNames ((L.flatMap fun j => [Item.dbl p (g j), Item.lit " "]) ++ Item.endl :: t)
      = dataArrayNames t := by
  induction L with
  | nil => simp [dataArrayNames]
  | cons j L ih =>
    cases L with
    | nil => simp [dataArrayNames]
    | cons k L =>
      simp only [List.flatMap_cons, List.cons_append, List.nil_append] at ih ⊢
      simp only [dataArrayNames]
      exact ih

theorem dataArrayNames_blockItems (p n : Nat) (ii : String × List α) (t : List (Item α)) :
    dataArrayNames (blockItems p n ii ++ t) = ii.1 :: dataArrayNames t := by
  have h := dataArrayNames_values p (fun j => ii.2[j]?) (List.range n)
    (Item.lit "        </DataArray>" :: Item.endl :: t)
  cases hn : List.range n with
  | nil =>
    simp [blockItems, valueItems, hn, dataArrayNames]
  | cons j L =>
    rw [hn] at h
    simp only [blockItems, valueItems, hn, List.flatMap_cons, List.cons_append, List.nil_append,
      List.append_assoc] at h ⊢
    simp only [dataArrayNames, if_true] at h ⊢
    rw [h]

theorem dataArrayNames_blocks (p n : Nat) (f : FieldMap α) :
    dataArrayNames (f.flatMap (blockItems p n)) = f.map Prod.fst := by
  induction f with
  | nil => rfl
  | cons ii f ih => rw [List.flatMap_cons, dataArrayNames_blockItems, ih, List.map_cons]

/-! ## The field blocks, the Scalars list and the header -/

/-- C5: for every field of the dictionary and all `numRows, numCols,
numLayers ≥ 0`, with `N = (numRows+1)*(numCols+1)*(numLayers+1)`, the DataArray
block that `vtkexport` writes for the field carries the name of the field and
exactly `N` values, the elements of the buffer at the indices 0, 1, ..., N-1
in this order, each followed by a blank. -/
theorem C5_field_block_values (f : FieldMap α) (numRows numCols numLayers : Nat)
    (i : Nat) (hi : i < f.length) :
    vtkexport_fieldBlock f numRows numCols numLayers i
      = [Item.lit "        <DataArray type=\"Float64\" Name=\"", Item.str (f.get ⟨i, hi⟩).1,
         Item.lit "\" format=\"ascii\">\n        "]
        ++ ((List.range ((numRows + 1) * (numCols + 1) * (numLayers + 1))).flatMap fun j =>
              [Item.dbl 6 (f.get ⟨i, hi⟩).2[j]?, Item.lit " "])
        ++ [Item.endl, Item.lit "        </DataArray>", Item.endl] ∧
    values (vtkexport_fieldBlock f numRows numCols numLayers i)
      = (List.range ((numRows + 1) * (numCols + 1) * (numLayers + 1))).map
          (fun j => (f.get ⟨i, hi⟩).2[j]?) ∧
    (values (vtkexport_fieldBlock f numRows numCols numLayers i)).length
      = (numRows + 1) * (numCols + 1) * (numLayers + 1) := by
  have hN : (((numRows : Int) + 1) * ((numCols : Int) + 1) * ((numLayers : Int) + 1)).toNat
      = (numRows + 1) * (numCols + 1) * (numLayers + 1) := by
    have : ((numRows : Int) + 1) * ((numCols : Int) + 1) * ((numLayers : Int) + 1)
        = (((numRows + 1) * (numCols + 1) * (numLayers + 1) : Nat) : Int) := by push_cast; ring
    rw [this, Int.toNat_ofNat]
  rw [vtkexport_fieldBlock_eq f _ _ _ i hi, hN]
  refine ⟨rfl, values_blockItems _ _ _, ?_⟩
  rw [values_blockItems, List.length_map, List.length_range]

/-- C5 for the field "p" with the buffer 1, 2, 3, 4 on a grid of 2 x 2 x 1
points. -/
theorem C5_field_block_values_witness :
    0 < [(("p" : String), ([1, 2, 3, 4] : List Int))].length ∧
    values (vtkexport_fieldBlock [(("p" : String), ([1, 2, 3, 4] : List Int))] 1 1 0 0)
      = [some 1, some 2, some 3, some 4] :=
  ⟨by decide,
   (C5_field_block_values [(("p" : String), ([1, 2, 3, 4] : List Int))] 1 1 0 0
      (by decide)).2.1.trans (by decide)⟩

/-- C6: for every field dictionary the number of DataArray blocks that
`vtkexport` writes inside the PointData section is the size of the dictionary,
and the `i`-th block carries the name of the `i`-th field in iteration order,
the order in which the names appear in the Scalars list. -/
theorem C6_one_block_per_field (f : FieldMap α) (num_rows num_cols num_layers : Int) :
    (dataArrayNames (vtkexport_fields f num_rows num_cols num_layers)).length = f.length ∧
    dataArrayNames (vtkexport_fields f num_rows num_cols num_layers) = f.map Prod.fst ∧
    names (vtkexport_scalars f num_rows num_cols num_layers) = f.map Prod.fst := by
  rw [vtkexport_fields_eq, vtkexport_scalars_eq, dataArrayNames_blocks, names_scalars,
    List.length_map]
  exact ⟨rfl, rfl, rfl⟩

/-- C7: for every field dictionary the value of the Scalars attribute that
`vtkexport` writes, the text between the literals `<PointData Scalars="` and
`">`, is the concatenation in iteration order of each field name followed by
one comma, so it ends with a comma after the last name; every name is one
entry. -/
theorem C7_scalars_list_trailing_comma (fmt : Nat → Option α → String) (f : FieldMap α)
    (num_rows num_cols num_layers : Int) :
    render fmt (vtkexport_scalars f num_rows num_cols num_layers)
      = String.join (f.map fun ii => ii.1 ++ ",") ∧
    names (vtkexport_scalars f num_rows num_cols num_layers) = f.map Prod.fst ∧
    (atFields f num_rows num_cols num_layers).out
      = (atPointData num_rows num_cols num_layers).out
        ++ [Item.lit "      <PointData Scalars=\""]
        ++ vtkexport_scalars f num_rows num_cols num_layers
        ++ [Item.lit "\">\n"] := by
  rw [vtkexport_scalars_eq]
  refine ⟨render_scalars fmt f, names_scalars f, ?_⟩
  simp only [atFields, OStream.putLit]
  rw [(scalarsNames_spec f _).1]
  simp [atScalars, OStream.putLit]

/-- C8: for all `numRows, numCols, numLayers ≥ 0` the header that `vtkexport`
writes carries the extents twice, as WholeExtent and as Piece Extent; both
descriptors are the six numbers `0 numRows 0 numCols 0 numLayers`, the cell
extents, and the header opens the document. -/
theorem C8_header_cell_extents [Zero α] (fmt : Nat → Option α → String) (X Y Z : List α)
    (f : FieldMap α) (numRows numCols numLayers : Nat) :
    render fmt (vtkexport_header α numRows numCols numLayers)
      = "<VTKFile type=\"StructuredGrid\" version=\"StructuredGrid\" byte_order=\"LittleEndian\">\n"
        ++ "    <StructuredGrid WholeExtent=\""
        ++ ("0 " ++ toString numRows ++ " 0 " ++ toString numCols ++ " 0 "
              ++ toString numLayers ++ " ")
        ++ "\">\n       <Piece Extent=\""
        ++ ("0 " ++ toString numRows ++ " 0 " ++ toString numCols ++ " 0 "
              ++ toString numLayers ++ " ")
        ++ "\">\n" ∧
    (vtkexport X Y Z f numRows numCols numLayers).out.take 13
      = vtkexport_header α numRows numCols numLayers := by
  constructor
  · rw [vtkexport_header_eq]
    have hs : ∀ n : Nat, toString ((n : Nat) : Int) = toString n := fun _ => rfl
    simp only [render, Item.render, hs, String.append_assoc, String.append_empty]
    rfl
  · rw [vtkexport_out, vtkexport_header_eq]
    rfl

/-! ## Precision -/

theorem precisions_blockItems (p n : Nat) (ii : String × List α) :
    precisions (blockItems p n ii) = List.replicate n p := by
  have h := precisions_valueItems p ii.2 n
  simp only [precisions] at h ⊢
  simp [blockItems, List.filterMap_append, h]

/-- Every value of a field block is written with the default precision, 6. -/
theorem precisions_fields (f : FieldMap α) (num_rows num_cols num_layers : Int) :
    ∀ p ∈ precisions (vtkexport_fields f num_rows num_cols num_layers), p = 6 := by
  rw [vtkexport_fields_eq]
  induction f with
  | nil => intro p hp; simp [precisions] at hp
  | cons ii f ih =>
    intro p hp
    have e : precisions ((ii :: f).flatMap
          (blockItems 6 ((num_rows + 1) * (num_cols + 1) * (num_layers + 1)).toNat))
        = precisions (blockItems 6 ((num_rows + 1) * (num_cols + 1) * (num_layers + 1)).toNat ii)
          ++ precisions (f.flatMap
              (blockItems 6 ((num_rows + 1) * (num_cols + 1) * (num_layers + 1)).toNat)) := by
      simp [precisions, List.flatMap_cons, List.filterMap_append]
    rw [e, precisions_blockItems, List.mem_append] at hp
    rcases hp with hp | hp
    · exact (List.mem_replicate.mp hp).2
    · exact ih p hp

/-- C9, the field values: on the dictionary {"p": [123456789]} and a grid of
one point, `vtkexport` writes the value of the field while the precision of the
stream is still the default, 6, below the 15 digits of the claim;
`std::setprecision (16)` is first executed in the point loops. -/
theorem C9_field_value_at_default_precision :
    vtkexport_fieldBlock [(("p" : String), ([123456789] : List Int))] 0 0 0 0
      = [Item.lit "        <DataArray type=\"Float64\" Name=\"", Item.str "p",
         Item.lit "\" format=\"ascii\">\n        ",
         Item.dbl 6 (some 123456789), Item.lit " ",
         Item.endl, Item.lit "        </DataArray>", Item.endl] ∧
    precisions (vtkexport_fields [(("p" : String), ([123456789] : List Int))] 0 0 0) = [6] ∧
    precisions (vtkexport_points ([0] : List Int) [0] [] [(("p" : String), [123456789])] 0 0 0)
      = [16, 16, 16] ∧
    ¬ (15 ≤ 6) := by
  decide

/-- C10: in the point block of `vtkexport` all three components of every
triple, the first triple included, are written with the precision 16; this
holds for all extents, the number of triples being the product of the trip
counts of the three loops. -/
theorem C10_point_precision_16 [Zero α] (X Y Z : List α) (f : FieldMap α)
    (num_rows num_cols num_layers : Int) :
    triples (precisions (vtkexport_points X Y Z f num_rows num_cols num_layers))
      = List.replicate
          ((num_cols + 1).toNat * (num_rows + 1).toNat * (num_layers + 1).toNat) (16, 16, 16) ∧
    precisions (vtkexport_points X Y Z f num_rows num_cols num_layers)
      = List.replicate
          (3 * ((num_cols + 1).toNat * (num_rows + 1).toNat * (num_layers + 1).toNat)) 16 := by
  rw [vtkexport_points_eq, precisions_pointItems]
  constructor
  · rw [triples_flatMap, List.map_const', length_gridPositions]
  · rw [List.eq_replicate_iff]
    constructor
    · rw [length_flatMap_triple, length_gridPositions]
    · intro p hp
      simp only [List.mem_flatMap] at hp
      obtain ⟨_, _, hp⟩ := hp
      simpa using hp

/-! ## The doubles of the whole document -/

theorem values_append (a b : List (Item α)) : values (a ++ b) = values a ++ values b := by
  simp [values, List.filterMap_append]

/-- The doubles of the point block, by position in the document. -/
theorem values_points_range [Zero α] (X Y Z : List α) (f : FieldMap α)
    (numRows numCols numLayers : Nat) :
    values (vtkexport_points X Y Z f numRows numCols numLayers)
      = (List.range ((numRows + 1) * (numCols + 1) * (numLayers + 1))).flatMap fun i =>
          [X[i]?, Y[i]?, get_z Z numLayers (i : Nat)] := by
  rw [vtkexport_points_eq, values_pointItems]
  simp only [toNat_natCast_succ]
  rw [Nat.mul_comm (numRows + 1) (numCols + 1),
    ← map_flatIndex_gridPositions (numCols + 1) (numRows + 1) (numLayers + 1), List.flatMap_map]

theorem toNat_nml (numRows numCols numLayers : Nat) :
    (((numRows : Int) + 1) * ((numCols : Int) + 1) * ((numLayers : Int) + 1)).toNat
      = (numRows + 1) * (numCols + 1) * (numLayers + 1) := by
  have : ((numRows : Int) + 1) * ((numCols : Int) + 1) * ((numLayers : Int) + 1)
      = (((numRows + 1) * (numCols + 1) * (numLayers + 1) : Nat) : Int) := by push_cast; ring
  rw [this, Int.toNat_ofNat]

/-- The doubles of the field blocks. -/
theorem values_fields (f : FieldMap α) (numRows numCols numLayers : Nat) :
    values (vtkexport_fields f numRows numCols numLayers)
      = f.flatMap fun ii =>
          (List.range ((numRows + 1) * (numCols + 1) * (numLayers + 1))).map fun j => ii.2[j]? := by
  rw [vtkexport_fields_eq, toNat_nml]
  induction f with
  | nil => rfl
  | cons ii f ih =>
    rw [List.flatMap_cons, List.flatMap_cons, values_append, values_blockItems, ih]

/-- The doubles of the document are those of the field blocks, then those of
the point block. -/
theorem values_vtkexport [Zero α] (X Y Z : List α) (f : FieldMap α)
    (num_rows num_cols num_layers : Int) :
    values (vtkexport X Y Z f num_rows num_cols num_layers).out
      = values (vtkexport_fields f num_rows num_cols num_layers)
        ++ values (vtkexport_points X Y Z f num_rows num_cols num_layers) := by
  rw [vtkexport_out, vtkexport_header_eq, vtkexport_scalars_eq]
  simp only [values_append]
  have hs : values (f.flatMap fun ii => [Item.str ii.1, Item.lit (α := α) ","]) = [] := by
    induction f with
    | nil => rfl
    | cons ii f ih =>
      rw [List.flatMap_cons, values_append, ih]
      rfl
  rw [hs]
  simp [values]

/-! ## Empty dictionary, reads in range, alignment -/

/-- C12: for an empty field dictionary and all `numRows, numCols, numLayers ≥ 0`
`vtkexport` still writes the PointData section, with the empty Scalars list
`Scalars=""` and no DataArray block between its opening and its closing tag,
and still writes the Points section in full, with
`(numRows+1)*(numCols+1)*(numLayers+1)` triples. -/
theorem C12_empty_dictionary [Zero α] (fmt : Nat → Option α → String) (X Y Z : List α)
    (numRows numCols numLayers : Nat) :
    (vtkexport X Y Z [] numRows numCols numLayers).out
      = vtkexport_header α numRows numCols numLayers
        ++ [Item.lit "      <PointData Scalars=\"", Item.lit "\">\n",
            Item.lit "      </PointData>\n",
            Item.lit "      <Points>\n        <DataArray type=\"Float64\" NumberOfComponents=\"3\" format=\"ascii\">\n"]
        ++ vtkexport_points X Y Z [] numRows numCols numLayers
        ++ [Item.lit "        </DataArray>\n      </Points>\n",
            Item.lit "    </Piece>\n  </StructuredGrid>\n</VTKFile>\n"] ∧
    render fmt ([Item.lit "      <PointData Scalars=\""]
        ++ vtkexport_scalars ([] : FieldMap α) numRows numCols numLayers
        ++ [Item.lit "\">\n"]) = "      <PointData Scalars=\"\">\n" ∧
    vtkexport_fields ([] : FieldMap α) numRows numCols numLayers = [] ∧
    dataArrayNames (vtkexport_fields ([] : FieldMap α) numRows numCols numLayers) = [] ∧
    (triples (values (vtkexport_points X Y Z [] numRows numCols numLayers))).length
      = (numRows + 1) * (numCols + 1) * (numLayers + 1) := by
  refine ⟨?_, ?_, ?_, ?_, ?_⟩
  · rw [vtkexport_out, vtkexport_scalars_eq, vtkexport_fields_eq]
    simp
  · rw [vtkexport_scalars_eq]
    rfl
  · rw [vtkexport_fields_eq]
    rfl
  · rw [vtkexport_fields_eq]
    rfl
  · rw [triples_points_range, List.length_map, List.length_range]

/-- C17: under the contract of the writer (extents at least 0; X, Y and every
field buffer of at least `N` elements, and Z of at least `N` elements when
`numLayers > 0`, with `N = (numRows+1)*(numCols+1)*(numLayers+1)`) no read of
`vtkexport`, in the field blocks or in the point block, is outside its buffer:
every double of the document is a `some`. -/
theorem C17_reads_in_range [Zero α] (X Y Z : List α) (f : FieldMap α)
    (numRows numCols numLayers : Nat)
    (hX : (numRows + 1) * (numCols + 1) * (numLayers + 1) ≤ X.length)
    (hY : (numRows + 1) * (numCols + 1) * (numLayers + 1) ≤ Y.length)
    (hZ : 0 < numLayers → (numRows + 1) * (numCols + 1) * (numLayers + 1) ≤ Z.length)
    (hf : ∀ ii ∈ f, (numRows + 1) * (numCols + 1) * (numLayers + 1) ≤ ii.2.length) :
    ∀ v ∈ values (vtkexport X Y Z f numRows numCols numLayers).out, v.isSome = true := by
  intro v hv
  rw [values_vtkexport, values_fields, values_points_range, List.mem_append] at hv
  rcases hv with hv | hv
  · simp only [List.mem_flatMap, List.mem_map, List.mem_range] at hv
    obtain ⟨ii, hii, j, hj, rfl⟩ := hv
    have hlt : j < ii.2.length := Nat.lt_of_lt_of_le hj (hf ii hii)
    simp [List.getElem?_eq_getElem hlt]
  · simp only [List.mem_flatMap, List.mem_range, List.mem_cons, List.mem_singleton,
      List.not_mem_nil, or_false] at hv
    obtain ⟨i, hi, hv⟩ := hv
    rcases hv with rfl | rfl | rfl
    · simp [List.getElem?_eq_getElem (Nat.lt_of_lt_of_le hi hX)]
    · simp [List.getElem?_eq_getElem (Nat.lt_of_lt_of_le hi hY)]
    · by_cases hl : 0 < numLayers
      · have hl2 : (numLayers : Int) > 0 := by exact_mod_cast hl
        simp [get_z, hl2, rd_natCast, List.getElem?_eq_getElem (Nat.lt_of_lt_of_le hi (hZ hl))]
      · have hl2 : ¬ (numLayers : Int) > 0 := by
          intro h; exact hl (by exact_mod_cast h)
        simp [get_z, hl2]

/-- C17 on a grid of 2 x 1 x 2 points with one field. -/
theorem C17_reads_in_range_witness :
    (1 + 1) * (0 + 1) * (1 + 1) ≤ ([10, 11, 12, 13] : List Int).length ∧
    (∀ v ∈ values (vtkexport ([10, 11, 12, 13] : List Int) [20, 21, 22, 23] [30, 31, 32, 33]
        [("p", [1, 2, 3, 4])] 1 0 1).out, v.isSome = true) :=
  ⟨by decide,
   C17_reads_in_range ([10, 11, 12, 13] : List Int) [20, 21, 22, 23] [30, 31, 32, 33]
     [("p", [1, 2, 3, 4])] 1 0 1 (by decide) (by decide) (fun _ => by decide) (by decide)⟩

/-- C18: for all `numRows, numCols, numLayers ≥ 0` and every field, the block of
the field holds as many values as the point block holds triples, and for every
`j < N` the `j`-th value of the block is the element `j` of the buffer and the
`j`-th triple is `(X[j], Y[j], Z[j])`, with `0` in place of `Z[j]` when
`numLayers = 0`: value and point are read at the same index. -/
theorem C18_fields_aligned_with_points [Zero α] (X Y Z : List α) (f : FieldMap α)
    (numRows numCols numLayers : Nat) (i : Nat) (hi : i < f.length) :
    (values (vtkexport_fieldBlock f numRows numCols numLayers i)).length
      = (triples (values (vtkexport_points X Y Z f numRows numCols numLayers))).length ∧
    ∀ j, j < (numRows + 1) * (numCols + 1) * (numLayers + 1) →
      (values (vtkexport_fieldBlock f numRows numCols numLayers i))[j]?
        = some (f.get ⟨i, hi⟩).2[j]? ∧
      (triples (values (vtkexport_points X Y Z f numRows numCols numLayers)))[j]?
        = some (X[j]?, Y[j]?, if 0 < numLayers then Z[j]? else some 0) := by
  rw [vtkexport_fieldBlock_eq f _ _ _ i hi, toNat_nml, values_blockItems, triples_points_range]
  refine ⟨by simp, ?_⟩
  intro j hj
  constructor
  · simp [List.getElem?_map, List.getElem?_range hj]
  · rw [List.getElem?_map, List.getElem?_range hj]
    by_cases hl : 0 < numLayers
    · have hl2 : (numLayers : Int) > 0 := by exact_mod_cast hl
      simp [get_z, hl, hl2, rd_natCast]
    · have hl2 : ¬ (numLayers : Int) > 0 := by
        intro h; exact hl (by exact_mod_cast h)
      simp [get_z, hl, hl2]

/-- C18 for the field "p" on a grid of 2 x 1 x 2 points, at `j = 2`. -/
theorem C18_fields_aligned_with_points_witness :
    0 < [(("p" : String), ([1, 2, 3, 4] : List Int))].length ∧
    2 < (1 + 1) * (0 + 1) * (1 + 1) ∧
    (values (vtkexport_fieldBlock [(("p" : String), ([1, 2, 3, 4] : List Int))] 1 0 1 0))[2]?
      = some (some 3) ∧
    (triples (values (vtkexport_points ([10, 11, 12, 13] : List Int) [20, 21, 22, 23]
        [30, 31, 32, 33] [("p", [1, 2, 3, 4])] 1 0 1)))[2]?
      = some (some 12, some 22, some 32) :=
  ⟨by decide, by decide,
   ((C18_fields_aligned_with_points ([10, 11, 12, 13] : List Int) [20, 21, 22, 23]
      [30, 31, 32, 33] [("p", [1, 2, 3, 4])] 1 0 1 0 (by decide)).2 2 (by decide)).1.trans
      (by decide),
   ((C18_fields_aligned_with_points ([10, 11, 12, 13] : List Int) [20, 21, 22, 23]
      [30, 31, 32, 33] [("p", [1, 2, 3, 4])] 1 0 1 0 (by decide)).2 2 (by decide)).2.trans
      (by decide)⟩

/-! ## The scenario of one field on a grid of 2 x 2 points -/

/-- C13: for the dictionary {"pressure": [1.0, 2.0, 3.0, 4.0]}, `numRows = 1`,
`numCols = 1`, `numLayers = 0` and any X, Y buffers of 4 elements, `vtkexport`
writes one DataArray block inside PointData, named "pressure", whose values are
the four tokens 1 2 3 4 in this order, and 4 point triples `(X[i], Y[i], 0)`,
`i = 0..3`.  The four values of the buffer are `v1 .. v4`; the conversion `fmt`
of the stream library turns them, at the precision 6 of the field blocks, into
the texts 1, 2, 3, 4. -/
theorem C13_pressure_scenario [Zero α] (fmt : Nat → Option α → String)
    (v1 v2 v3 v4 x0 x1 x2 x3 y0 y1 y2 y3 : α) (Z : List α)
    (h1 : fmt 6 (some v1) = "1") (h2 : fmt 6 (some v2) = "2")
    (h3 : fmt 6 (some v3) = "3") (h4 : fmt 6 (some v4) = "4") :
    dataArrayNames (vtkexport_fields [("pressure", [v1, v2, v3, v4])] 1 1 0) = ["pressure"] ∧
    vtkexport_fields [("pressure", [v1, v2, v3, v4])] 1 1 0
      = vtkexport_fieldBlock [("pressure", [v1, v2, v3, v4])] 1 1 0 0 ∧
    values (vtkexport_fieldBlock [("pressure", [v1, v2, v3, v4])] 1 1 0 0)
      = [some v1, some v2, some v3, some v4] ∧
    render fmt (vtkexport_fieldBlock [("pressure", [v1, v2, v3, v4])] 1 1 0 0)
      = "        <DataArray type=\"Float64\" Name=\"pressure\" format=\"ascii\">\n        1 2 3 4 \n        </DataArray>\n" ∧
    triples (values (vtkexport_points [x0, x1, x2, x3] [y0, y1, y2, y3] Z
        [("pressure", [v1, v2, v3, v4])] 1 1 0))
      = [(some x0, some y0, some 0), (some x1, some y1, some 0),
         (some x2, some y2, some 0), (some x3, some y3, some 0)] := by
  have hb : vtkexport_fieldBlock [("pressure", [v1, v2, v3, v4])] 1 1 0 0
      = blockItems 6 4 ("pressure", [v1, v2, v3, v4]) :=
    vtkexport_fieldBlock_eq [("pressure", [v1, v2, v3, v4])] 1 1 0 0 (Nat.zero_lt_one)
  have hf : vtkexport_fields [("pressure", [v1, v2, v3, v4])] 1 1 0
      = blockItems 6 4 ("pressure", [v1, v2, v3, v4]) := by
    rw [vtkexport_fields_eq]
    exact List.append_nil _
  refine ⟨?_, ?_, ?_, ?_, ?_⟩
  · rw [vtkexport_fields_eq, dataArrayNames_blocks]
    rfl
  · rw [hb, hf]
  · rw [hb, values_blockItems]
    rfl
  · rw [hb]
    have e : blockItems 6 4 ("pressure", [v1, v2, v3, v4])
        = [Item.lit "        <DataArray type=\"Float64\" Name=\"", Item.str "pressure",
           Item.lit "\" format=\"ascii\">\n        ",
           Item.dbl 6 (some v1), Item.lit " ", Item.dbl 6 (some v2), Item.lit " ",
           Item.dbl 6 (some v3), Item.lit " ", Item.dbl 6 (some v4), Item.lit " ",
           Item.endl, Item.lit "        </DataArray>", Item.endl] := rfl
    rw [e]
    simp only [render, Item.render, h1, h2, h3, h4]
    rfl
  · have h := triples_points_range [x0, x1, x2, x3] [y0, y1, y2, y3] Z
      [("pressure", [v1, v2, v3, v4])] 1 1 0
    simp only [Nat.cast_one, Nat.cast_zero] at h
    rw [h]
    simp [get_z, List.range_succ]

/-- C13 with the doubles 1, 2, 3, 4 as integers and their decimal conversion. -/
theorem C13_pressure_scenario_witness :
    (fun (_ : Nat) (v : Option Int) => (v.map toString).getD "") 6 (some 1) = "1" ∧
    (fun (_ : Nat) (v : Option Int) => (v.map toString).getD "") 6 (some 2) = "2" ∧
    (fun (_ : Nat) (v : Option Int) => (v.map toString).getD "") 6 (some 3) = "3" ∧
    (fun (_ : Nat) (v : Option Int) => (v.map toString).getD "") 6 (some 4) = "4" ∧
    render (fun (_ : Nat) (v : Option Int) => (v.map toString).getD "")
        (vtkexport_fieldBlock [("pressure", ([1, 2, 3, 4] : List Int))] 1 1 0 0)
      = "        <DataArray type=\"Float64\" Name=\"pressure\" format=\"ascii\">\n        1 2 3 4 \n        </DataArray>\n" ∧
    triples (values (vtkexport_points ([5, 6, 7, 8] : List Int) [9, 10, 11, 12] []
        [("pressure", [1, 2, 3, 4])] 1 1 0))
      = [(some 5, some 9, some 0), (some 6, some 10, some 0),
         (some 7, some 11, some 0), (some 8, some 12, some 0)] :=
  ⟨rfl, rfl, rfl, rfl,
   (C13_pressure_scenario (fun (_ : Nat) (v : Option Int) => (v.map toString).getD "")
      1 2 3 4 5 6 7 8 9 10 11 12 [] rfl rfl rfl rfl).2.2.2.1,
   (C13_pressure_scenario (fun (_ : Nat) (v : Option Int) => (v.map toString).getD "")
      1 2 3 4 5 6 7 8 9 10 11 12 [] rfl rfl rfl rfl).2.2.2.2⟩

/-! ## The entry point: extents -/

/-- C16: the entry point `fpl_vts_write_field` derives the extents that it
passes to `vtkexport` from the shapes of the arrays: `numRows` is the extent of
X along the first axis minus 1, `numCols` the extent of Y along the second axis
minus 1, and `numLayers` the extent of Z along the third axis minus 1 when a Z
argument is given (more than 5 arguments); without Z, `numLayers = 0` and there
is one layer of points. -/
theorem C16_entry_point_extents [Zero α] (filename : String) (var_names : List String)
    (vars : List (NDArray α)) (X Y z : NDArray α) (more : List (NDArray α))
    (r c l d2 d3 e1 e3 g1 g2 : Nat) (xs ys zs : List α) :
    fpl_vts_write_field ⟨filename, var_names, vars, X, Y, []⟩
      = vtkexport X.data Y.data [] (fieldMapOf var_names vars)
          ((X.dim1 : Int) - 1) ((Y.dim2 : Int) - 1) 0 ∧
    fpl_vts_write_field ⟨filename, var_names, vars, X, Y, z :: more⟩
      = vtkexport X.data Y.data z.data (fieldMapOf var_names vars)
          ((X.dim1 : Int) - 1) ((Y.dim2 : Int) - 1) ((z.dim3 : Int) - 1) ∧
    (fpl_vts_write_field ⟨filename, var_names, vars, X, Y, z :: more⟩).out.take 13
      = vtkexport_header α ((X.dim1 : Int) - 1) ((Y.dim2 : Int) - 1) ((z.dim3 : Int) - 1) ∧
    (fpl_vts_write_field ⟨filename, var_names, vars, X, Y, []⟩).out.take 13
      = vtkexport_header α ((X.dim1 : Int) - 1) ((Y.dim2 : Int) - 1) 0 ∧
    fpl_vts_write_field
        ⟨filename, var_names, vars, ⟨r + 1, d2, d3, xs⟩, ⟨e1, c + 1, e3, ys⟩,
          ⟨g1, g2, l + 1, zs⟩ :: more⟩
      = vtkexport xs ys zs (fieldMapOf var_names vars) r c l ∧
    fpl_vts_write_field
        ⟨filename, var_names, vars, ⟨r + 1, d2, d3, xs⟩, ⟨e1, c + 1, e3, ys⟩, []⟩
      = vtkexport xs ys [] (fieldMapOf var_names vars) r c 0 := by
  have h0 : fpl_vts_write_field ⟨filename, var_names, vars, X, Y, []⟩
      = vtkexport X.data Y.data [] (fieldMapOf var_names vars)
          ((X.dim1 : Int) - 1) ((Y.dim2 : Int) - 1) 0 := by
    simp [fpl_vts_write_field, Args.length]
  have h1 : fpl_vts_write_field ⟨filename, var_names, vars, X, Y, z :: more⟩
      = vtkexport X.data Y.data z.data (fieldMapOf var_names vars)
          ((X.dim1 : Int) - 1) ((Y.dim2 : Int) - 1) ((z.dim3 : Int) - 1) := by
    have hn : (5 : Int) + ((z :: more).length : Int) > 5 := by
      simp only [List.length_cons]
      push_cast
      omega
    simp only [fpl_vts_write_field, Args.length, hn, if_true]
  have hn : (5 : Int) + (((⟨g1, g2, l + 1, zs⟩ : NDArray α) :: more).length : Int) > 5 := by
    simp only [List.length_cons]
    push_cast
    omega
  have e1 : (((r + 1 : Nat) : Int) - 1) = (r : Int) := by push_cast; ring
  have e2 : (((c + 1 : Nat) : Int) - 1) = (c : Int) := by push_cast; ring
  have e3 : (((l + 1 : Nat) : Int) - 1) = (l : Int) := by push_cast; ring
  refine ⟨h0, h1, ?_, ?_, ?_, ?_⟩
  · rw [h1, vtkexport_out, vtkexport_header_eq]
    rfl
  · rw [h0, vtkexport_out, vtkexport_header_eq]
    rfl
  · simp only [fpl_vts_write_field, Args.length, hn, if_true, e1, e2, e3]
  · simp [fpl_vts_write_field, Args.length, e1, e2]

/-! ## The dictionary of the entry point: order of the names -/

theorem mem_mapAssign (f : FieldMap α) (k : String) (v : List α) (b : String × List α)
    (h : b ∈ mapAssign f k v) : b.1 = k ∨ b ∈ f := by
  induction f with
  | nil =>
    simp only [mapAssign, List.mem_singleton] at h
    exact Or.inl (by rw [h])
  | cons e f ih =>
    obtain ⟨k', v'⟩ := e
    simp only [mapAssign] at h
    split_ifs at h with h1 h2
    · rcases List.mem_cons.mp h with h | h
      · exact Or.inl (by rw [h])
      · exact Or.inr h
    · rcases List.mem_cons.mp h with h | h
      · exact Or.inr (by rw [h]; exact List.mem_cons_self _ _)
      · rcases ih h with h | h
        · exact Or.inl h
        · exact Or.inr (List.mem_cons_of_mem _ h)
    · rcases List.mem_cons.mp h with h | h
      · have hk : k = k' := le_antisymm (not_lt.mp h2) (not_lt.mp h1)
        exact Or.inl (by rw [h, hk])
      · exact Or.inr (List.mem_cons_of_mem _ h)

/-- The assignment keeps the keys strictly ascending. -/
theorem mapAssign_sorted (f : FieldMap α) (k : String) (v : List α)
    (hs : f.Pairwise fun a b => a.1 < b.1) :
    (mapAssign f k v).Pairwise fun a b => a.1 < b.1 := by
  induction f with
  | nil => simp [mapAssign]
  | cons e f ih =>
    obtain ⟨k', v'⟩ := e
    rw [List.pairwise_cons] at hs
    simp only [mapAssign]
    split_ifs with h1 h2
    · rw [List.pairwise_cons]
      refine ⟨?_, List.pairwise_cons.mpr hs⟩
      intro b hb
      rcases List.mem_cons.mp hb with hb | hb
      · rw [hb]; exact h1
      · exact lt_trans h1 (hs.1 b hb)
    · rw [List.pairwise_cons]
      refine ⟨?_, ih hs.2⟩
      intro b hb
      rcases mem_mapAssign f k v b hb with hb | hb
      · rw [hb]; exact h2
      · exact hs.1 b hb
    · rw [List.pairwise_cons]
      exact ⟨hs.1, hs.2⟩

/-- The assignment of a new key adds one entry. -/
theorem mapAssign_perm (f : FieldMap α) (k : String) (v : List α)
    (hk : k ∉ f.map Prod.fst) : (mapAssign f k v).Perm ((k, v) :: f) := by
  induction f with
  | nil => exact List.Perm.refl _
  | cons e f ih =>
    obtain ⟨k', v'⟩ := e
    simp only [List.map_cons, List.mem_cons, not_or] at hk
    simp only [mapAssign]
    split_ifs with h1 h2
    · exact List.Perm.refl _
    · exact ((ih hk.2).cons (k', v')).trans (List.Perm.swap _ _ _)
    · exact absurd (le_antisymm (not_lt.mp h2) (not_lt.mp h1)) hk.1

/-- The loop of lines 119-121 on two cells of the same length is the sequence
of the assignments of the pairs. -/
theorem fieldMapOf_pairs (pairs : List (String × NDArray α)) :
    fieldMapOf (pairs.map Prod.fst) (pairs.map Prod.snd)
      = pairs.foldl (fun f p => mapAssign f p.1 p.2.data) [] := by
  unfold fieldMapOf forLoop
  simp only [List.length_map, Int.toNat_ofNat]
  induction pairs using List.reverseRecOn with
  | nil => rfl
  | append_singleton pairs p ih =>
    rw [List.length_append, List.length_singleton, List.range_succ, List.foldl_append,
      List.foldl_append]
    have hl : ∀ i ∈ List.range pairs.length, ∀ f : FieldMap α,
        mapAssign f ((rd (List.map Prod.fst (pairs ++ [p])) (Int.ofNat i)).getD "")
            (((rd (List.map Prod.snd (pairs ++ [p])) (Int.ofNat i)).map NDArray.data).getD [])
          = mapAssign f ((rd (List.map Prod.fst pairs) (Int.ofNat i)).getD "")
            (((rd (List.map Prod.snd pairs) (Int.ofNat i)).map NDArray.data).getD []) := by
      intro i hi f
      have hi2 : i < pairs.length := List.mem_range.mp hi
      have e : Int.ofNat i = (i : Int) := rfl
      simp only [e, rd_natCast, List.map_append, List.getElem?_append_left, List.length_map, hi2]
    have hfold : ∀ (L : List Nat) (init : FieldMap α), (∀ i ∈ L, i ∈ List.range pairs.length) →
        L.foldl (fun st i =>
          mapAssign st ((rd (List.map Prod.fst (pairs ++ [p])) (Int.ofNat i)).getD "")
            (((rd (List.map Prod.snd (pairs ++ [p])) (Int.ofNat i)).map NDArray.data).getD []))
          init
        = L.foldl (fun st i =>
          mapAssign st ((rd (List.map Prod.fst pairs) (Int.ofNat i)).getD "")
            (((rd (List.map Prod.snd pairs) (Int.ofNat i)).map NDArray.data).getD [])) init := by
      intro L
      induction L with
      | nil => intro _ _; rfl
      | cons i L ihL =>
        intro init hL
        rw [List.foldl_cons, List.foldl_cons, hl i (hL i (List.mem_cons_self _ _)),
          ihL _ (fun j hj => hL j (List.mem_cons_of_mem _ hj))]
    rw [hfold _ _ (fun i hi => hi), ih]
    have e : Int.ofNat pairs.length = (pairs.length : Int) := rfl
    simp [e, rd_natCast]

/-- The assignments of pairs with distinct new names give an ascending
dictionary that holds the entries it had and the pairs. -/
theorem foldl_mapAssign (pairs : List (String × NDArray α)) (acc : FieldMap α)
    (hs : acc.Pairwise fun a b => a.1 < b.1)
    (hnd : (acc.map Prod.fst ++ pairs.map Prod.fst).Nodup) :
    (pairs.foldl (fun f p => mapAssign f p.1 p.2.data) acc).Pairwise (fun a b => a.1 < b.1) ∧
    (pairs.foldl (fun f p => mapAssign f p.1 p.2.data) acc).Perm
      (acc ++ pairs.map fun p => (p.1, p.2.data)) := by
  induction pairs generalizing acc with
  | nil => simpa using hs
  | cons p pairs ih =>
    have hk : p.1 ∉ acc.map Prod.fst := by
      intro hmem
      rw [List.nodup_append] at hnd
      exact hnd.2.2 hmem (by simp)
    have hperm := mapAssign_perm acc p.1 p.2.data hk
    have hnd2 : ((mapAssign acc p.1 p.2.data).map Prod.fst ++ pairs.map Prod.fst).Nodup := by
      have h1 : ((mapAssign acc p.1 p.2.data).map Prod.fst ++ pairs.map Prod.fst).Perm
          (acc.map Prod.fst ++ (p :: pairs).map Prod.fst) := by
        have h2 := (hperm.map Prod.fst).append_right (pairs.map Prod.fst)
        refine h2.trans ?_
        simp only [List.map_cons, List.cons_append]
        exact List.perm_middle.symm
      exact h1.nodup_iff.mpr hnd
    obtain ⟨ih1, ih2⟩ := ih (mapAssign acc p.1 p.2.data) (mapAssign_sorted acc p.1 p.2.data hs) hnd2
    refine ⟨ih1, ?_⟩
    rw [List.foldl_cons]
    refine ih2.trans ?_
    refine (hperm.append_right _).trans ?_
    simp only [List.map_cons, List.cons_append]
    exact List.perm_middle.symm

/-- The dictionary of the entry point for pairs with distinct names: ascending
in the names, and the same for every order of the pairs. -/
theorem fieldMapOf_perm (pairs pairs' : List (String × NDArray α)) (hp : pairs.Perm pairs')
    (hnd : (pairs.map Prod.fst).Nodup) :
    (fieldMapOf (pairs.map Prod.fst) (pairs.map Prod.snd)).Pairwise (fun a b => a.1 < b.1) ∧
    (fieldMapOf (pairs.map Prod.fst) (pairs.map Prod.snd)).Perm
      (pairs.map fun p => (p.1, p.2.data)) ∧
    fieldMapOf (pairs.map Prod.fst) (pairs.map Prod.snd)
      = fieldMapOf (pairs'.map Prod.fst) (pairs'.map Prod.snd) := by
  have hnd' : (pairs'.map Prod.fst).Nodup := (hp.map Prod.fst).nodup_iff.mp hnd
  obtain ⟨s1, p1⟩ := foldl_mapAssign pairs [] List.Pairwise.nil (by simpa using hnd)
  obtain ⟨s2, p2⟩ := foldl_mapAssign pairs' [] List.Pairwise.nil (by simpa using hnd')
  rw [fieldMapOf_pairs, fieldMapOf_pairs]
  refine ⟨s1, by simpa using p1, ?_⟩
  haveI : IsAntisymm (String × List α) (fun a b => a.1 < b.1) :=
    ⟨fun a b h1 h2 => absurd h2 (lt_asymm h1)⟩
  refine List.eq_of_perm_of_sorted ?_ s1 s2
  refine p1.trans (List.Perm.trans ?_ p2.symm)
  simpa using hp.map fun p => (p.1, p.2.data)

/-- C14: the field blocks and the entries of the Scalars list appear in an
order that does not depend on the order in which the caller gave the names:
for pairs (name, array) with distinct names the names of the Scalars list and
of the field blocks are strictly ascending and are the names given, and the
entry point `fpl_vts_write_field` writes the same document for every
permutation of the pairs. -/
theorem C14_order_of_fields_is_ascending [Zero α] (filename : String) (X Y : NDArray α)
    (more : List (NDArray α)) (pairs pairs' : List (String × NDArray α))
    (num_rows num_cols num_layers : Int)
    (hp : pairs.Perm pairs') (hnd : (pairs.map Prod.fst).Nodup) :
    fpl_vts_write_field ⟨filename, pairs.map Prod.fst, pairs.map Prod.snd, X, Y, more⟩
      = fpl_vts_write_field ⟨filename, pairs'.map Prod.fst, pairs'.map Prod.snd, X, Y, more⟩ ∧
    (names (vtkexport_scalars (fieldMapOf (pairs.map Prod.fst) (pairs.map Prod.snd))
        num_rows num_cols num_layers)).Pairwise (fun a b => a < b) ∧
    (dataArrayNames (vtkexport_fields (fieldMapOf (pairs.map Prod.fst) (pairs.map Prod.snd))
        num_rows num_cols num_layers)).Pairwise (fun a b => a < b) ∧
    (names (vtkexport_scalars (fieldMapOf (pairs.map Prod.fst) (pairs.map Prod.snd))
        num_rows num_cols num_layers)).Perm (pairs.map Prod.fst) := by
  obtain ⟨hs, hperm, heq⟩ := fieldMapOf_perm pairs pairs' hp hnd
  have hsorted : ((fieldMapOf (pairs.map Prod.fst) (pairs.map Prod.snd)).map Prod.fst).Pairwise
      (fun a b => a < b) := List.pairwise_map.mpr hs
  rw [vtkexport_scalars_eq, vtkexport_fields_eq, names_scalars, dataArrayNames_blocks]
  refine ⟨?_, hsorted, hsorted, ?_⟩
  · simp only [fpl_vts_write_field, Args.length, heq]
  · have h := hperm.map Prod.fst
    simpa [List.map_map, Function.comp_def] using h

/-- C14 for the names "b", "a" given in the two orders. -/
theorem C14_order_of_fields_is_ascending_witness :
    ([(("b" : String), (⟨2, 1, 1, [1, 2]⟩ : NDArray Int)), ("a", ⟨2, 1, 1, [3, 4]⟩)]).Perm
      [("a", ⟨2, 1, 1, [3, 4]⟩), ("b", ⟨2, 1, 1, [1, 2]⟩)] ∧
    (([(("b" : String), (⟨2, 1, 1, [1, 2]⟩ : NDArray Int)), ("a", ⟨2, 1, 1, [3, 4]⟩)]).map
      Prod.fst).Nodup ∧
    fpl_vts_write_field ⟨"grid.vts",
        ([(("b" : String), (⟨2, 1, 1, [1, 2]⟩ : NDArray Int)), ("a", ⟨2, 1, 1, [3, 4]⟩)]).map
          Prod.fst,
        ([(("b" : String), (⟨2, 1, 1, [1, 2]⟩ : NDArray Int)), ("a", ⟨2, 1, 1, [3, 4]⟩)]).map
          Prod.snd,
        ⟨2, 1, 1, [0, 1]⟩, ⟨2, 1, 1, [5, 6]⟩, []⟩
      = fpl_vts_write_field ⟨"grid.vts",
        ([(("a" : String), (⟨2, 1, 1, [3, 4]⟩ : NDArray Int)), ("b", ⟨2, 1, 1, [1, 2]⟩)]).map
          Prod.fst,
        ([(("a" : String), (⟨2, 1, 1, [3, 4]⟩ : NDArray Int)), ("b", ⟨2, 1, 1, [1, 2]⟩)]).map
          Prod.snd,
        ⟨2, 1, 1, [0, 1]⟩, ⟨2, 1, 1, [5, 6]⟩, []⟩ :=
  ⟨List.Perm.swap _ _ _, by decide,
   (C14_order_of_fields_is_ascending "grid.vts" ⟨2, 1, 1, [0, 1]⟩ ⟨2, 1, 1, [5, 6]⟩ []
      [(("b" : String), (⟨2, 1, 1, [1, 2]⟩ : NDArray Int)), ("a", ⟨2, 1, 1, [3, 4]⟩)]
      [("a", ⟨2, 1, 1, [3, 4]⟩), ("b", ⟨2, 1, 1, [1, 2]⟩)] 1 0 0
      (List.Perm.swap _ _ _) (by decide)).1⟩

/-! ## The file behind the sink: failures -/

theorem foldlM_put_failed (doc : List (Item α)) (c : List (Item α)) :
    doc.foldlM FileState.put ⟨false, false, c⟩ = Except.ok ⟨false, false, c⟩ := by
  induction doc with
  | nil => rfl
  | cons it doc ih =>
    rw [List.foldlM_cons]
    have e : FileState.put ⟨false, false, c⟩ it = Except.ok ⟨false, false, c⟩ := rfl
    rw [e]
    exact ih

theorem foldlM_put_good (doc : List (Item α)) (c : List (Item α)) :
    doc.foldlM FileState.put ⟨true, false, c⟩ = Except.ok ⟨true, false, c ++ doc⟩ := by
  induction doc generalizing c with
  | nil => simp [List.foldlM_nil, pure, Except.pure]
  | cons it doc ih =>
    rw [List.foldlM_cons]
    have e : FileState.put ⟨true, false, c⟩ it = Except.ok ⟨true, false, c ++ [it]⟩ := rfl
    rw [e]
    have h := ih (c ++ [it])
    rw [List.append_assoc] at h
    exact h

/-- A stream whose exception mask is set reports the failed open at the first
insertion; the stream of `vtkexport` keeps the default mask. -/
theorem foldlM_put_failed_throws (it : Item α) (doc : List (Item α)) (c : List (Item α)) :
    (it :: doc).foldlM FileState.put ⟨false, true, c⟩ = Except.error IOFailure.failure := by
  rw [List.foldlM_cons]
  rfl

theorem vtkexport_call_failed [Zero α] (X Y Z : List α) (f : FieldMap α)
    (num_rows num_cols num_layers : Int) :
    vtkexport_call ⟨false⟩ X Y Z f num_rows num_cols num_layers
      = Except.ok ⟨false, false, []⟩ :=
  foldlM_put_failed _ []

theorem vtkexport_call_opened [Zero α] (X Y Z : List α) (f : FieldMap α)
    (num_rows num_cols num_layers : Int) :
    vtkexport_call ⟨true⟩ X Y Z f num_rows num_cols num_layers
      = Except.ok ⟨true, false, (vtkexport X Y Z f num_rows num_cols num_layers).out⟩ := by
  have h := foldlM_put_good (vtkexport X Y Z f num_rows num_cols num_layers).out []
  rw [List.nil_append] at h
  exact h

/-- C11 as stated fails: on a device where the file cannot be opened, the call
of `vtkexport` for a grid of one point does not give an `IOFailure` to its
caller; it returns as a call does that wrote the document, with the stream
failed and nothing written, while the document is not empty. -/
theorem C11_failure_is_not_reported :
    (¬ ∃ e, vtkexport_call ⟨false⟩ ([0] : List Int) [0] [] [] 0 0 0 = Except.error e) ∧
    vtkexport_call ⟨false⟩ ([0] : List Int) [0] [] [] 0 0 0 = Except.ok ⟨false, false, []⟩ ∧
    (vtkexport ([0] : List Int) [0] [] [] 0 0 0).out ≠ [] := by
  have h := vtkexport_call_failed ([0] : List Int) [0] [] [] 0 0 0
  refine ⟨?_, h, by decide⟩
  rintro ⟨e, he⟩
  rw [h] at he
  cases he

/-- C11, amended: `vtkexport` does not report a failure of the sink.  It is
declared `void`, never tests the stream and leaves its exception mask at the
default.  When the file cannot be opened, no insertion is written and the call
still returns to its caller, with the stream failed; when the file is opened,
the call returns with the whole document taken by the stream. -/
theorem C11_open_failure_returns_normally [Zero α] (X Y Z : List α) (f : FieldMap α)
    (num_rows num_cols num_layers : Int) :
    vtkexport_call ⟨false⟩ X Y Z f num_rows num_cols num_layers
      = Except.ok ⟨false, false, []⟩ ∧
    vtkexport_call ⟨true⟩ X Y Z f num_rows num_cols num_layers
      = Except.ok ⟨true, false, (vtkexport X Y Z f num_rows num_cols num_layers).out⟩ :=
  ⟨vtkexport_call_failed X Y Z f num_rows num_cols num_layers,
   vtkexport_call_opened X Y Z f num_rows num_cols num_layers⟩

/-! ## The structure of the document -/

end Fpl
